import Mathlib

/-!
Snowflake identifiers (`pkg/snowflake/snowflake.go`) and worker identifiers
(`pkg/workerid/ip.go`).

A shallow embedding of the bit-layout `Factory` and of the stateful generator
`Snowflake`, followed by the properties established about them.

Conventions of the embedding:

* Go's `uint` and `uint64` are natural numbers below `2 ^ 64`, `uint32` is a natural
  number below `2 ^ 32` (`uint` is 64 bits wide, as on every 64-bit Go target).  Every
  arithmetic operation of the source that can leave its range is followed by an explicit
  reduction modulo the width.
* `time.Time` is represented by its `UnixNano()` reading, `time.Duration` by its number of
  nanoseconds; both are `int64` values.
* A Go result `(value, error)` is a pair whose second component is `none` for `nil`.
* A function that can end in a run-time panic (an integer division by zero, an index out
  of range) returns an `Option`, `none` being the panic.
* `Snowflake.ID` runs under the generator's mutex, so calls are serialised: one call is a
  function from the state before the call to the state after it.  What the call reads from
  the outside world is passed in: the first reading of `CurrentElapsedTime()`, the second
  reading (consumed only on the regression path) and the value returned by
  `generateRandomSequence(9)` (consumed only on the advance path).
* `IDNow` is the same method with the clock made explicit: every `time.Now()` the call
  makes, including the one inside `generateRandomSequence`, takes the next of a list of
  readings.
-/

namespace Idx

/-! ## Machine arithmetic -/

/-- Subtraction of `uint64` (and `uint`) values: wraps modulo `2 ^ 64`. -/
def sub64 (a b : Nat) : Nat := (a % 2 ^ 64 + 2 ^ 64 - b % 2 ^ 64) % 2 ^ 64

/-- Addition of `uint64` (and `uint`) values: wraps modulo `2 ^ 64`. -/
def add64 (a b : Nat) : Nat := (a + b) % 2 ^ 64

/-- Left shift of a `uint64`: bits shifted past position 63 are lost, so every shift count
of 64 or more yields 0. -/
def shl64 (x n : Nat) : Nat := if 64 ≤ n then 0 else (x <<< n) % 2 ^ 64

/-- Left shift of a `uint32`: every shift count of 32 or more yields 0. -/
def shl32 (x n : Nat) : Nat := if 32 ≤ n then 0 else (x <<< n) % 2 ^ 32

/-- Subtraction of `uint32` values: wraps modulo `2 ^ 32`. -/
def sub32 (a b : Nat) : Nat := (a % 2 ^ 32 + 2 ^ 32 - b % 2 ^ 32) % 2 ^ 32

/-- Addition of `uint32` values: wraps modulo `2 ^ 32`. -/
def add32 (a b : Nat) : Nat := (a + b) % 2 ^ 32

/-- Reinterpretation of an integer as an `int64` (two's complement). -/
def toInt64 (n : Int) : Int := (n + 2 ^ 63) % 2 ^ 64 - 2 ^ 63

/-! ## Errors -/

/-- The error values the package produces. -/
inductive Err where
  /-- The package variable `InvalidSystemClock`. -/
  | InvalidSystemClock
  /-- The error `errors.New("over the time limit")` of `BuildID`. -/
  | overTheTimeLimit
  /-- The error `fmt.Errorf("worker id can't be large than %d", maxWorkerID)`. -/
  | workerIDTooLarge (maxWorkerID : Nat)
  deriving DecidableEq, Repr

/-! ## Factory -/

/-- The struct `Factory`. -/
structure Factory where
  bitLenWorkerID : Nat
  bitLenTimestamp : Nat
  bitLenSequence : Nat
  startTime : Int
  unit : Int
  deriving DecidableEq, Repr

/-- The constant `time.Millisecond`, in nanoseconds. -/
def Millisecond : Int := 1000000

/-- The function `NewFactory`: the timestamp width is `63 - bitLenSequence - bitLenWorkerID`
in `uint` arithmetic. -/
def NewFactory (bitLenWorkerID bitLenSequence gapMs : Nat) (startTime : Int) : Factory :=
  { bitLenWorkerID := bitLenWorkerID
    bitLenSequence := bitLenSequence
    bitLenTimestamp := sub64 (sub64 63 bitLenSequence) bitLenWorkerID
    startTime := startTime
    unit := toInt64 (toInt64 (gapMs : Int) * Millisecond) }

/-- The method `Factory.MaxSequence`: `1<<f.bitLenSequence - 1` evaluated in `uint32`. -/
def MaxSequence (f : Factory) : Nat := sub32 (shl32 1 f.bitLenSequence) 1

/-- The method `Factory.MaxWorkerID`: `1<<f.bitLenWorkerID - 1` evaluated in `uint32`. -/
def MaxWorkerID (f : Factory) : Nat := sub32 (shl32 1 f.bitLenWorkerID) 1

/-- The method `Factory.MaskSequence`. -/
def MaskSequence (f : Factory) (sequence : Nat) : Nat := sequence &&& MaxSequence f

/-- The method `Factory.BuildID`: the comparison and the shifts are `uint64` operations, the
sum of the two widths is a `uint` addition. -/
def BuildID (f : Factory) (workerID elapsedTime sequence : Nat) : Nat × Option Err :=
  if elapsedTime ≥ shl64 1 f.bitLenTimestamp then
    (0, some Err.overTheTimeLimit)
  else
    (shl64 elapsedTime (add64 f.bitLenSequence f.bitLenWorkerID)
        ||| shl64 sequence f.bitLenWorkerID ||| workerID, none)

/-- Conversion of an `int64` to `uint64`: the same bits, read unsigned. -/
def toUint64 (n : Int) : Nat := (n % 2 ^ 64).toNat

/-- The constant `time.Nanosecond`. -/
def Nanosecond : Int := 1

/-- The method `Factory.FlakeTimestamp` at the instant whose `UnixNano()` is `t`: the
`int64` quotient, which Go truncates toward zero, converted to `uint64`. The result `none`
is the run-time panic of an integer division by zero. -/
def FlakeTimestamp (f : Factory) (t : Int) : Option Nat :=
  if f.unit = 0 then none else some (toUint64 (toInt64 (Int.tdiv t f.unit)))

/-- The method `Factory.CurrentElapsedTime`, `time.Now()` being the instant `now`: a
`uint64` subtraction. -/
def CurrentElapsedTime (f : Factory) (now : Int) : Option Nat :=
  match FlakeTimestamp f now, FlakeTimestamp f f.startTime with
  | some a, some b => some (sub64 a b)
  | _, _ => none

/-- The method `Factory.SleepTime`, `time.Now()` being the instant `now`:
`overtime*f.unit - time.Duration(now)%f.unit*time.Nanosecond` in `int64`, the remainder
having the sign of the dividend. The result `none` is the run-time panic of an integer
division by zero. -/
def SleepTime (f : Factory) (now overtime : Int) : Option Int :=
  if f.unit = 0 then none
  else some (toInt64 (toInt64 (overtime * f.unit)
    - toInt64 (toInt64 (Int.tmod now f.unit) * Nanosecond)))

/-! ## Generator -/

/-- The struct `Snowflake` (the mutex is the serialisation of the calls). -/
structure Snowflake where
  f : Factory
  workerID : Nat
  elapsedTime : Nat
  sequence : Nat
  deriving DecidableEq, Repr

/-- The method `Factory.NewSnowflake`. -/
def Factory.NewSnowflake (f : Factory) (workerID : Nat) : Option Snowflake × Option Err :=
  let maxWorkerID := MaxWorkerID f
  if workerID > maxWorkerID then
    (none, some (Err.workerIDTooLarge maxWorkerID))
  else
    (some { f := f, workerID := workerID, elapsedTime := 0, sequence := 0 }, none)

/-- The `startTime` of the package-level `NewSnowflake`, `2010-11-04T01:42:54.657Z`, as
nanoseconds since the Unix epoch. -/
def defaultStartTime : Int := 1288834974657 * 1000000

/-- The package-level function `NewSnowflake`. -/
def NewSnowflake (workerID : Nat) : Option Snowflake × Option Err :=
  (NewFactory 10 12 1 defaultStartTime).NewSnowflake workerID

/-- The method `Snowflake.WorkerID`. -/
def WorkerID (sf : Snowflake) : Nat := sf.workerID

/-- What one call of `Snowflake.ID` reads from outside the generator: the first reading of
`CurrentElapsedTime()`, the reading taken again on the regression path, and the value of
`generateRandomSequence(9)`. -/
structure Call where
  c1 : Nat
  c2 : Nat
  r : Nat
  deriving DecidableEq, Repr

/-- The outcome of one call of `Snowflake.ID`: the generator afterwards, the returned pair,
and the argument handed to `SleepTime` when the call slept. -/
structure Outcome where
  sf : Snowflake
  ret : Nat × Option Err
  overtime : Option Int
  deriving DecidableEq, Repr

/-- Lines 114 to 120 of `Snowflake.ID`: the increment of the sequence, reached with the
last reading `currentElapsedTime` of the clock. -/
def increment (sf : Snowflake) (currentElapsedTime : Nat) : Outcome :=
  let sf1 := { sf with sequence := MaskSequence sf.f (add32 sf.sequence 1) }
  if sf1.sequence = 0 then
    let sf2 := { sf1 with elapsedTime := add64 sf1.elapsedTime 1 }
    { sf := sf2, ret := BuildID sf2.f sf2.workerID sf2.elapsedTime sf2.sequence,
      overtime := some (toInt64 (sub64 sf2.elapsedTime currentElapsedTime)) }
  else
    { sf := sf1, ret := BuildID sf1.f sf1.workerID sf1.elapsedTime sf1.sequence,
      overtime := none }

/-- The method `Snowflake.ID`. -/
def ID (sf : Snowflake) (k : Call) : Outcome :=
  if sf.elapsedTime < k.c1 then
    let sf1 := { sf with elapsedTime := k.c1, sequence := k.r }
    { sf := sf1, ret := BuildID sf1.f sf1.workerID sf1.elapsedTime sf1.sequence,
      overtime := none }
  else if sf.elapsedTime > k.c1 then
    if sf.elapsedTime > k.c2 then
      { sf := sf, ret := (0, some Err.InvalidSystemClock), overtime := none }
    else
      increment sf k.c2
  else
    increment sf k.c1

/-- The generator after a series of `Snowflake.ID` calls executed one after another. -/
def final (sf : Snowflake) : List Call → Snowflake
  | [] => sf
  | k :: ks => final (ID sf k).sf ks

/-- The identifiers returned by the calls of a series that succeeded, in call order. -/
def issued (sf : Snowflake) : List Call → List Nat
  | [] => []
  | k :: ks =>
    if (ID sf k).ret.2 = none then (ID sf k).ret.1 :: issued (ID sf k).sf ks
    else issued (ID sf k).sf ks

/-- The pairs returned by the calls of a series, in call order. -/
def results (sf : Snowflake) : List Call → List (Nat × Option Err)
  | [] => []
  | k :: ks => (ID sf k).ret :: results (ID sf k).sf ks

/-! ## The clock inside a call -/

/-- Conversion of an integer to `int32`: the low 32 bits, read signed. -/
def toInt32 (n : Int) : Int := (n + 2 ^ 31) % 2 ^ 32 - 2 ^ 31

/-- Conversion of an integer to `uint32`: the low 32 bits, read unsigned. -/
def toUint32 (n : Int) : Nat := (n % 2 ^ 32).toNat

/-- The result of a computation that reads the clock. The clock is the list of the readings
`time.Now()` is still to return, as `UnixNano()` values: each reading takes the first and
leaves the rest. The computation ends with a value and the readings left, or in a run-time
panic, or it asks for a reading when the list has none left. -/
inductive Run (α : Type) where
  | ok (value : α) (clock : List Int)
  | panic
  | noReading
  deriving DecidableEq, Repr

/-- The method `source.Uint64`, lines 130 to 132: `uint64(time.Now().UnixNano())`. -/
def source.Uint64 (clock : List Int) : Run Nat :=
  match clock with
  | [] => Run.noReading
  | now :: rest => Run.ok (toUint64 now) rest

/-- The loop `for lo < thresh { hi, lo = bits.Mul64(r.Uint64(), n) }` of `uint64n`, entered
with the current `hi` and `lo`. -/
def uint64nLoop (n thresh : Nat) : Nat → Nat → List Int → Run Nat
  | hi, lo, [] => if lo < thresh then Run.noReading else Run.ok hi []
  | hi, lo, now :: rest =>
    if lo < thresh then
      uint64nLoop n thresh (toUint64 now * n / 2 ^ 64) (toUint64 now * n % 2 ^ 64) rest
    else Run.ok hi (now :: rest)

/-- The method `uint64n` of `math/rand/v2` (Go standard library, not part of this
repository), after its source on a 64-bit target, the random source being `source`: for a
power of two the low bits of one value of the source; otherwise the high word of the 128-bit
product `value * n`, a value being drawn again while the low word is below
`thresh = -n % n`. -/
def uint64n (n : Nat) (clock : List Int) : Run Nat :=
  if n &&& sub64 n 1 = 0 then
    match source.Uint64 clock with
    | Run.ok x rest => Run.ok (x &&& sub64 n 1) rest
    | Run.panic => Run.panic
    | Run.noReading => Run.noReading
  else
    match source.Uint64 clock with
    | Run.ok x rest =>
      if x * n % 2 ^ 64 < n then
        uint64nLoop n (sub64 0 n % n) (x * n / 2 ^ 64) (x * n % 2 ^ 64) rest
      else Run.ok (x * n / 2 ^ 64) rest
    | Run.panic => Run.panic
    | Run.noReading => Run.noReading

/-- The method `Int32N` of `math/rand/v2`, after its source: it panics for `n ≤ 0` and
returns `int32(r.uint64n(uint64(n)))`. -/
def Int32N (n : Int) (clock : List Int) : Run Int :=
  if n ≤ 0 then Run.panic
  else
    match uint64n (toUint64 n) clock with
    | Run.ok v rest => Run.ok (toInt32 (v : Int)) rest
    | Run.panic => Run.panic
    | Run.noReading => Run.noReading

/-- The function `generateRandomSequence`, lines 123 to 125:
`uint32(randv2.New(&source{}).Int32N(n))`. -/
def generateRandomSequence (n : Int) (clock : List Int) : Run Nat :=
  match Int32N n clock with
  | Run.ok v rest => Run.ok (toUint32 v) rest
  | Run.panic => Run.panic
  | Run.noReading => Run.noReading

/-- The method `Factory.CurrentElapsedTime` reading the clock. -/
def CurrentElapsedTimeNow (f : Factory) (clock : List Int) : Run Nat :=
  match clock with
  | [] => Run.noReading
  | now :: rest =>
    match CurrentElapsedTime f now with
    | some c => Run.ok c rest
    | none => Run.panic

/-- Lines 114 to 120 of `Snowflake.ID` reading the clock: `SleepTime` reads `time.Now()`
when the sequence has wrapped. -/
def incrementNow (sf : Snowflake) (currentElapsedTime : Nat) (clock : List Int) :
    Run Outcome :=
  match (increment sf currentElapsedTime).overtime with
  | none => Run.ok (increment sf currentElapsedTime) clock
  | some overtime =>
    match clock with
    | [] => Run.noReading
    | now :: rest =>
      match SleepTime sf.f now overtime with
      | some _ => Run.ok (increment sf currentElapsedTime) rest
      | none => Run.panic

/-- The method `Snowflake.ID` reading the clock: every `time.Now()` of lines 92 to 121, and
of the functions they call, takes the next reading. -/
def IDNow (sf : Snowflake) (clock : List Int) : Run Outcome :=
  match CurrentElapsedTimeNow sf.f clock with
  | Run.panic => Run.panic
  | Run.noReading => Run.noReading
  | Run.ok currentElapsedTime clock1 =>
    if sf.elapsedTime < currentElapsedTime then
      match generateRandomSequence 9 clock1 with
      | Run.panic => Run.panic
      | Run.noReading => Run.noReading
      | Run.ok r clock2 =>
        let sf1 := { sf with elapsedTime := currentElapsedTime, sequence := r }
        Run.ok
          { sf := sf1, ret := BuildID sf1.f sf1.workerID sf1.elapsedTime sf1.sequence,
            overtime := none }
          clock2
    else if sf.elapsedTime > currentElapsedTime then
      match CurrentElapsedTimeNow sf.f clock1 with
      | Run.panic => Run.panic
      | Run.noReading => Run.noReading
      | Run.ok currentElapsedTime2 clock2 =>
        if sf.elapsedTime > currentElapsedTime2 then
          Run.ok { sf := sf, ret := (0, some Err.InvalidSystemClock), overtime := none } clock2
        else
          incrementNow sf currentElapsedTime2 clock2
    else
      incrementNow sf currentElapsedTime clock1

/-! ## Worker identifiers (`pkg/workerid/ip.go`) -/

/-- The type `net.IP`, a slice of bytes; `none` is the nil slice, which differs from the
empty slice `some []`. -/
abbrev IP := Option (List (Fin 256))

/-- The method `To4` of `net.IP`, from the Go standard library (package `net`, which is not
part of this repository), after its source: a slice of length 4 is returned as it is; a
slice of length 16 whose first ten bytes are zero and whose next two bytes are `0xff` yields
its last four bytes; every other slice yields nil. -/
def To4 (ip : IP) : IP :=
  match ip with
  | none => none
  | some bs =>
    if bs.length = 4 then some bs
    else if bs.length = 16 ∧ (bs.take 10).all (fun b => decide (b = 0)) = true
        ∧ bs[10]? = some 255 ∧ bs[11]? = some 255 then
      some ((bs.drop 12).take 4)
    else none

/-- The function `FromIP`. The result `none` is the run-time panic of indexing a slice out
of range. -/
def FromIP (ip : IP) : Option Nat :=
  match ip with
  | none => some 0
  | some bs =>
    match To4 (some bs) with
    | none => none
    | some b4 =>
      match b4[2]?, b4[3]? with
      | some b2, some b3 => some (add32 (shl32 b2.val 8) b3.val)
      | _, _ => none

/-! ## Vocabulary of the proofs -/

/-- The position of a generator state in the order of identifiers: the value its tick,
sequence and worker lay out when the three fields do not overlap. -/
def rank (sf : Snowflake) : Nat :=
  (sf.elapsedTime * 2 ^ sf.f.bitLenSequence + sf.sequence) * 2 ^ sf.f.bitLenWorkerID
    + sf.workerID

/-- A generator state whose fields are in range: the sequence is at most `MaxSequence()`,
the worker at most `MaxWorkerID()`, and the tick is a `uint64`. -/
def InRange (sf : Snowflake) : Prop :=
  sf.sequence ≤ MaxSequence sf.f ∧ sf.workerID ≤ MaxWorkerID sf.f ∧
    sf.elapsedTime ≤ 2 ^ 64 - 1

/-- What a call does to the rank: the factory and the worker stay, the fields stay in range,
the rank does not go down, and a call that succeeds moves the rank up and returns it. -/
def Advances (sf : Snowflake) (o : Outcome) : Prop :=
  o.sf.f = sf.f ∧ o.sf.workerID = sf.workerID ∧ InRange o.sf ∧ rank sf ≤ rank o.sf ∧
    (o.ret.2 = none → rank sf < rank o.sf ∧ o.ret.1 = rank o.sf)


/-! ## Machine arithmetic: basic facts -/

/-- A `uint64` left shift is a multiplication by a power of two, modulo `2 ^ 64`. -/
theorem shl64_eq (x n : Nat) : shl64 x n = x * 2 ^ n % 2 ^ 64 := by
  unfold shl64
  by_cases h : 64 ≤ n
  · rw [if_pos h]
    exact (Nat.mod_eq_zero_of_dvd (Dvd.dvd.mul_left (Nat.pow_dvd_pow 2 h) x)).symm
  · rw [if_neg h, Nat.shiftLeft_eq]

/-- A `uint32` left shift is a multiplication by a power of two, modulo `2 ^ 32`. -/
theorem shl32_eq (x n : Nat) : shl32 x n = x * 2 ^ n % 2 ^ 32 := by
  unfold shl32
  by_cases h : 32 ≤ n
  · rw [if_pos h]
    exact (Nat.mod_eq_zero_of_dvd (Dvd.dvd.mul_left (Nat.pow_dvd_pow 2 h) x)).symm
  · rw [if_neg h, Nat.shiftLeft_eq]

theorem sub64_of_le {a b : Nat} (ha : a < 2 ^ 64) (hb : b ≤ a) : sub64 a b = a - b := by
  unfold sub64
  omega

theorem add64_of_lt {a b : Nat} (h : a + b < 2 ^ 64) : add64 a b = a + b := by
  unfold add64
  omega

theorem shl64_one {n : Nat} (h : n ≤ 63) : shl64 1 n = 2 ^ n := by
  rw [shl64_eq, Nat.one_mul]
  exact Nat.mod_eq_of_lt (Nat.pow_lt_pow_right (by decide) (by omega))

theorem NewFactory_bitLenTimestamp {w s : Nat} (gapMs : Nat) (startTime : Int)
    (h : w + s ≤ 63) : (NewFactory w s gapMs startTime).bitLenTimestamp = 63 - s - w := by
  show sub64 (sub64 63 s) w = 63 - s - w
  have h1 : sub64 63 s = 63 - s := sub64_of_le (by decide) (by omega)
  rw [h1]
  exact sub64_of_le (by omega) (by omega)

/-- The comparison of `BuildID` for a factory whose two widths sum to at most 63. -/
theorem BuildID_limit {w s : Nat} (gapMs : Nat) (startTime : Int) (h : w + s ≤ 63) :
    shl64 1 (NewFactory w s gapMs startTime).bitLenTimestamp = 2 ^ (63 - s - w) := by
  rw [NewFactory_bitLenTimestamp gapMs startTime h, shl64_one (by omega)]

/-! ## C1 -/

/-- C1. For a factory built by `NewFactory` with `workerBits + sequenceBits ≤ 63`, the
timestamp width is `63 - sequenceBits - workerBits`; `BuildID` fails exactly when
`elapsedTime ≥ 2 ^ timestampBits`, the failure being `(0, "over the time limit")`; and
otherwise it returns `elapsedTime << (sequenceBits + workerBits) | sequence << workerBits |
workerID`, each shift taken on 64-bit unsigned integers. -/
theorem C1_BuildID_fails_iff (w s gapMs : Nat) (startTime : Int) (h : w + s ≤ 63)
    (workerID elapsedTime sequence : Nat) :
    (NewFactory w s gapMs startTime).bitLenTimestamp = 63 - s - w ∧
    ((BuildID (NewFactory w s gapMs startTime) workerID elapsedTime sequence).2 ≠ none ↔
      elapsedTime ≥ 2 ^ (63 - s - w)) ∧
    (elapsedTime ≥ 2 ^ (63 - s - w) →
      BuildID (NewFactory w s gapMs startTime) workerID elapsedTime sequence
        = (0, some Err.overTheTimeLimit)) ∧
    (elapsedTime < 2 ^ (63 - s - w) →
      BuildID (NewFactory w s gapMs startTime) workerID elapsedTime sequence
        = ((elapsedTime <<< (s + w)) % 2 ^ 64 ||| (sequence <<< w) % 2 ^ 64 ||| workerID,
            none)) := by
  have hlim := BuildID_limit gapMs startTime h
  have hadd : add64 s w = s + w := add64_of_lt (by omega)
  refine ⟨NewFactory_bitLenTimestamp gapMs startTime h, ?_, ?_, ?_⟩
  · unfold BuildID
    rw [hlim]
    by_cases he : elapsedTime ≥ 2 ^ (63 - s - w)
    · simp [he]
    · simp [he]
  · intro he
    unfold BuildID
    rw [hlim, if_pos he]
  · intro he
    unfold BuildID
    rw [hlim, if_neg (by omega)]
    show (shl64 elapsedTime (add64 s w) ||| shl64 sequence w ||| workerID, none) = _
    rw [hadd, shl64_eq, shl64_eq, Nat.shiftLeft_eq, Nat.shiftLeft_eq]

/-- C1, at a concrete input: the default layout, worker 5, tick 7, sequence 3. -/
theorem C1_BuildID_fails_iff_witness :
    10 + 12 ≤ 63 ∧
    (NewFactory 10 12 1 0).bitLenTimestamp = 63 - 12 - 10 ∧
    ((BuildID (NewFactory 10 12 1 0) 5 7 3).2 ≠ none ↔ 7 ≥ 2 ^ (63 - 12 - 10)) ∧
    (7 ≥ 2 ^ (63 - 12 - 10) →
      BuildID (NewFactory 10 12 1 0) 5 7 3 = (0, some Err.overTheTimeLimit)) ∧
    (7 < 2 ^ (63 - 12 - 10) →
      BuildID (NewFactory 10 12 1 0) 5 7 3
        = ((7 <<< (12 + 10)) % 2 ^ 64 ||| (3 <<< 10) % 2 ^ 64 ||| 5, none)) :=
  ⟨by decide, C1_BuildID_fails_iff 10 12 1 0 (by decide) 5 7 3⟩


/-! ## The derived maxima and the bit layout -/

/-- The `uint32` expression `1<<n - 1` is `2 ^ n - 1` up to width 32 and stays at
`2 ^ 32 - 1` above. -/
theorem sub32_shl32_one (n : Nat) : sub32 (shl32 1 n) 1 = 2 ^ min n 32 - 1 := by
  rw [shl32_eq, Nat.one_mul]
  unfold sub32
  by_cases hn : n < 32
  · have h1 : 2 ^ n < 2 ^ 32 := Nat.pow_lt_pow_right (by decide) hn
    have h2 : 0 < 2 ^ n := Nat.pow_pos (by decide)
    rw [Nat.min_eq_left (by omega), Nat.mod_eq_of_lt h1]
    omega
  · have h1 : 2 ^ n % 2 ^ 32 = 0 :=
      Nat.mod_eq_zero_of_dvd (Nat.pow_dvd_pow 2 (by omega))
    rw [Nat.min_eq_right (by omega), h1]
    rfl

theorem MaxSequence_eq (f : Factory) : MaxSequence f = 2 ^ min f.bitLenSequence 32 - 1 :=
  sub32_shl32_one f.bitLenSequence

theorem MaxWorkerID_eq (f : Factory) : MaxWorkerID f = 2 ^ min f.bitLenWorkerID 32 - 1 :=
  sub32_shl32_one f.bitLenWorkerID

theorem lt_pow_of_le_MaxSequence {f : Factory} {x : Nat} (h : x ≤ MaxSequence f) :
    x < 2 ^ f.bitLenSequence := by
  rw [MaxSequence_eq] at h
  have h1 : 2 ^ min f.bitLenSequence 32 ≤ 2 ^ f.bitLenSequence :=
    Nat.pow_le_pow_right (by decide) (Nat.min_le_left _ _)
  have h2 : 0 < 2 ^ min f.bitLenSequence 32 := Nat.pow_pos (by decide)
  omega

theorem lt_pow_of_le_MaxWorkerID {f : Factory} {x : Nat} (h : x ≤ MaxWorkerID f) :
    x < 2 ^ f.bitLenWorkerID := by
  rw [MaxWorkerID_eq] at h
  have h1 : 2 ^ min f.bitLenWorkerID 32 ≤ 2 ^ f.bitLenWorkerID :=
    Nat.pow_le_pow_right (by decide) (Nat.min_le_left _ _)
  have h2 : 0 < 2 ^ min f.bitLenWorkerID 32 := Nat.pow_pos (by decide)
  omega

/-- Two fields that do not overlap: the bitwise or is the sum. -/
theorem mul_pow_or {b k : Nat} (a : Nat) (h : b < 2 ^ k) : a * 2 ^ k ||| b = a * 2 ^ k + b := by
  rw [Nat.mul_comm a (2 ^ k)]
  exact (Nat.mul_add_lt_is_or h a).symm

/-- The three fields of an identifier do not overlap: with the tick below
`2 ^ (63 - s - w)`, the sequence below `2 ^ s` and the worker below `2 ^ w`, the value
assembled by shifts and ors is `(tick * 2 ^ s + sequence) * 2 ^ w + worker`. -/
theorem layout {w s e q i : Nat} (h : w + s ≤ 63) (he : e < 2 ^ (63 - s - w))
    (hq : q < 2 ^ s) (hi : i < 2 ^ w) :
    shl64 e (s + w) ||| shl64 q w ||| i = (e * 2 ^ s + q) * 2 ^ w + i := by
  have h63 : (2 : Nat) ^ (63 - s - w) * 2 ^ (s + w) = 2 ^ 63 := by
    rw [← Nat.pow_add]
    congr 1
    omega
  have hsw : (2 : Nat) ^ (s + w) = 2 ^ s * 2 ^ w := Nat.pow_add 2 s w
  have hpos : 0 < (2 : Nat) ^ (s + w) := Nat.pow_pos (by decide)
  have hposw : 0 < (2 : Nat) ^ w := Nat.pow_pos (by decide)
  have h1 : e * 2 ^ (s + w) < 2 ^ 63 := by
    rw [← h63]
    exact Nat.mul_lt_mul_of_pos_right he hpos
  have h2 : q * 2 ^ w < 2 ^ (s + w) := by
    rw [hsw]
    exact Nat.mul_lt_mul_of_pos_right hq hposw
  have h3 : (2 : Nat) ^ (s + w) ≤ 2 ^ 63 := Nat.pow_le_pow_right (by decide) (by omega)
  have e1 : shl64 e (s + w) = e * 2 ^ (s + w) := by
    rw [shl64_eq]
    exact Nat.mod_eq_of_lt (by omega)
  have e2 : shl64 q w = q * 2 ^ w := by
    rw [shl64_eq]
    exact Nat.mod_eq_of_lt (by omega)
  rw [e1, e2, mul_pow_or e h2]
  have e3 : e * 2 ^ (s + w) + q * 2 ^ w = (e * 2 ^ s + q) * 2 ^ w := by
    rw [hsw]
    ring
  rw [e3, mul_pow_or _ hi]

/-- The value assembled from in-range fields is below `2 ^ 63`. -/
theorem layout_lt {w s e q i : Nat} (h : w + s ≤ 63) (he : e < 2 ^ (63 - s - w))
    (hq : q < 2 ^ s) (hi : i < 2 ^ w) : (e * 2 ^ s + q) * 2 ^ w + i < 2 ^ 63 := by
  have h63 : (2 : Nat) ^ 63 = 2 ^ (63 - s - w) * 2 ^ s * 2 ^ w := by
    rw [← Nat.pow_add, ← Nat.pow_add]
    congr 1
    omega
  have h1 : e * 2 ^ s + q < 2 ^ (63 - s - w) * 2 ^ s := by
    have : (e + 1) * 2 ^ s ≤ 2 ^ (63 - s - w) * 2 ^ s := Nat.mul_le_mul_right _ he
    rw [Nat.add_mul, Nat.one_mul] at this
    omega
  have h2 : (e * 2 ^ s + q + 1) * 2 ^ w ≤ 2 ^ (63 - s - w) * 2 ^ s * 2 ^ w :=
    Nat.mul_le_mul_right _ h1
  rw [Nat.add_mul, Nat.one_mul] at h2
  omega

/-- A successful `BuildID` on in-range fields, in closed form. -/
theorem BuildID_eq {w s : Nat} (gapMs : Nat) (startTime : Int) (h : w + s ≤ 63)
    {workerID elapsedTime sequence : Nat}
    (hi : workerID ≤ MaxWorkerID (NewFactory w s gapMs startTime))
    (hq : sequence ≤ MaxSequence (NewFactory w s gapMs startTime))
    (he : elapsedTime < 2 ^ (63 - s - w)) :
    BuildID (NewFactory w s gapMs startTime) workerID elapsedTime sequence
      = ((elapsedTime * 2 ^ s + sequence) * 2 ^ w + workerID, none) := by
  unfold BuildID
  rw [BuildID_limit gapMs startTime h, if_neg (by omega)]
  show (shl64 elapsedTime (add64 s w) ||| shl64 sequence w ||| workerID, none) = _
  rw [add64_of_lt (by omega),
    layout h he (lt_pow_of_le_MaxSequence hq) (lt_pow_of_le_MaxWorkerID hi)]

/-- `BuildID` fails with "over the time limit" from `2 ^ (63 - s - w)` on. -/
theorem BuildID_over {w s : Nat} (gapMs : Nat) (startTime : Int) (h : w + s ≤ 63)
    (workerID : Nat) {elapsedTime : Nat} (sequence : Nat)
    (he : 2 ^ (63 - s - w) ≤ elapsedTime) :
    BuildID (NewFactory w s gapMs startTime) workerID elapsedTime sequence
      = (0, some Err.overTheTimeLimit) := by
  unfold BuildID
  rw [BuildID_limit gapMs startTime h, if_pos he]


/-! ## C2 -/

/-- Decomposition of a laid-out value into its three fields. -/
theorem fields_of_layout {w s e q i : Nat} (hq : q < 2 ^ s) (hi : i < 2 ^ w) :
    ((e * 2 ^ s + q) * 2 ^ w + i) >>> (s + w) = e ∧
    (((e * 2 ^ s + q) * 2 ^ w + i) >>> w) &&& (2 ^ s - 1) = q ∧
    ((e * 2 ^ s + q) * 2 ^ w + i) &&& (2 ^ w - 1) = i := by
  have hposw : 0 < (2 : Nat) ^ w := Nat.pow_pos (by decide)
  have hposs : 0 < (2 : Nat) ^ s := Nat.pow_pos (by decide)
  have d1 : ((e * 2 ^ s + q) * 2 ^ w + i) / 2 ^ w = e * 2 ^ s + q := by
    rw [Nat.mul_comm, Nat.mul_add_div hposw, Nat.div_eq_of_lt hi, Nat.add_zero]
  have d2 : (e * 2 ^ s + q) / 2 ^ s = e := by
    rw [Nat.mul_comm, Nat.mul_add_div hposs, Nat.div_eq_of_lt hq, Nat.add_zero]
  refine ⟨?_, ?_, ?_⟩
  · rw [Nat.shiftRight_eq_div_pow, Nat.add_comm s w, Nat.pow_add, ← Nat.div_div_eq_div_mul,
      d1, d2]
  · rw [Nat.shiftRight_eq_div_pow, Nat.and_pow_two_sub_one_eq_mod, d1, Nat.mul_comm,
      Nat.mul_add_mod, Nat.mod_eq_of_lt hq]
  · rw [Nat.and_pow_two_sub_one_eq_mod, Nat.mul_comm, Nat.mul_add_mod, Nat.mod_eq_of_lt hi]

/-- C2. Bit-field round trip: for a factory with `workerBits + sequenceBits ≤ 63`, a worker
at most `MaxWorkerID()`, a sequence at most `MaxSequence()` and a tick below
`2 ^ timestampBits`, `BuildID` succeeds, and the identifier it returns splits back into the
three values: `id >> (sequenceBits + workerBits)` is the tick,
`(id >> workerBits) & (2 ^ sequenceBits - 1)` is the sequence and
`id & (2 ^ workerBits - 1)` is the worker. -/
theorem C2_BuildID_round_trip (w s gapMs : Nat) (startTime : Int) (h : w + s ≤ 63)
    (workerID elapsedTime sequence : Nat)
    (hi : workerID ≤ MaxWorkerID (NewFactory w s gapMs startTime))
    (hq : sequence ≤ MaxSequence (NewFactory w s gapMs startTime))
    (he : elapsedTime < 2 ^ (NewFactory w s gapMs startTime).bitLenTimestamp) :
    (BuildID (NewFactory w s gapMs startTime) workerID elapsedTime sequence).2 = none ∧
    ∀ id : Nat,
      BuildID (NewFactory w s gapMs startTime) workerID elapsedTime sequence = (id, none) →
      id >>> (s + w) = elapsedTime ∧
      (id >>> w) &&& (2 ^ s - 1) = sequence ∧
      id &&& (2 ^ w - 1) = workerID := by
  rw [NewFactory_bitLenTimestamp gapMs startTime h] at he
  rw [BuildID_eq gapMs startTime h hi hq he]
  refine ⟨rfl, ?_⟩
  intro id hid
  have hid1 : (elapsedTime * 2 ^ s + sequence) * 2 ^ w + workerID = id :=
    congrArg Prod.fst hid
  rw [← hid1]
  exact fields_of_layout (lt_pow_of_le_MaxSequence hq) (lt_pow_of_le_MaxWorkerID hi)

/-- C2, at a concrete input: the default layout, worker 5, tick 7, sequence 3. -/
theorem C2_BuildID_round_trip_witness :
    (10 + 12 ≤ 63 ∧ 5 ≤ MaxWorkerID (NewFactory 10 12 1 0) ∧
      3 ≤ MaxSequence (NewFactory 10 12 1 0) ∧
      7 < 2 ^ (NewFactory 10 12 1 0).bitLenTimestamp) ∧
    (BuildID (NewFactory 10 12 1 0) 5 7 3).2 = none ∧
    ∀ id : Nat, BuildID (NewFactory 10 12 1 0) 5 7 3 = (id, none) →
      id >>> (12 + 10) = 7 ∧ (id >>> 10) &&& (2 ^ 12 - 1) = 3 ∧ id &&& (2 ^ 10 - 1) = 5 :=
  ⟨⟨by decide, by decide, by decide, by decide⟩,
    C2_BuildID_round_trip 10 12 1 0 (by decide) 5 7 3 (by decide) (by decide) (by decide)⟩

/-! ## C8 -/

/-- C8. 63-bit bound: for a factory with `workerBits + sequenceBits ≤ 63`, a worker at most
`MaxWorkerID()`, a sequence at most `MaxSequence()` and any tick, an identifier returned by
a successful `BuildID` is at most `2 ^ 63 - 1`. -/
theorem C8_BuildID_le_max_int64 (w s gapMs : Nat) (startTime : Int) (h : w + s ≤ 63)
    (workerID elapsedTime sequence id : Nat)
    (hi : workerID ≤ MaxWorkerID (NewFactory w s gapMs startTime))
    (hq : sequence ≤ MaxSequence (NewFactory w s gapMs startTime))
    (hid : BuildID (NewFactory w s gapMs startTime) workerID elapsedTime sequence
      = (id, none)) :
    id ≤ 2 ^ 63 - 1 := by
  by_cases he : elapsedTime < 2 ^ (63 - s - w)
  · rw [BuildID_eq gapMs startTime h hi hq he] at hid
    have hid1 : (elapsedTime * 2 ^ s + sequence) * 2 ^ w + workerID = id :=
      congrArg Prod.fst hid
    have := layout_lt h he (lt_pow_of_le_MaxSequence hq) (lt_pow_of_le_MaxWorkerID hi)
    omega
  · rw [BuildID_over gapMs startTime h workerID sequence (by omega)] at hid
    have hid2 : some Err.overTheTimeLimit = none := congrArg Prod.snd hid
    exact absurd hid2 (by simp)

/-- C8, at the largest identifier of the default layout: worker 1023, tick `2 ^ 41 - 1`,
sequence 4095 give `2 ^ 63 - 1`. -/
theorem C8_BuildID_le_max_int64_witness :
    (10 + 12 ≤ 63 ∧ 1023 ≤ MaxWorkerID (NewFactory 10 12 1 0) ∧
      4095 ≤ MaxSequence (NewFactory 10 12 1 0) ∧
      BuildID (NewFactory 10 12 1 0) 1023 (2 ^ 41 - 1) 4095 = (2 ^ 63 - 1, none)) ∧
    2 ^ 63 - 1 ≤ 2 ^ 63 - 1 :=
  ⟨⟨by decide, by decide, by decide, by decide⟩,
    C8_BuildID_le_max_int64 10 12 1 0 (by decide) 1023 (2 ^ 41 - 1) 4095 (2 ^ 63 - 1)
      (by decide) (by decide) (by decide)⟩


/-! ## C10 -/

/-- C10, as the code has it. `MaxSequence()` and `MaxWorkerID()` are computed in `uint32`:
for every factory `MaxSequence() = 2 ^ min sequenceBits 32 - 1` and
`MaxWorkerID() = 2 ^ min workerBits 32 - 1`. They are `2 ^ bits - 1` for widths up to 32 and
stay at `2 ^ 32 - 1` for wider fields. -/
theorem C10_maxima_capped (f : Factory) :
    MaxSequence f = 2 ^ min f.bitLenSequence 32 - 1 ∧
    MaxWorkerID f = 2 ^ min f.bitLenWorkerID 32 - 1 :=
  ⟨sub32_shl32_one f.bitLenSequence, sub32_shl32_one f.bitLenWorkerID⟩

/-- C10 fails above 32 bits: with 33 sequence bits (and 10 worker bits) `MaxSequence()` is
`2 ^ 32 - 1`, not `2 ^ 33 - 1`; with 33 worker bits (and 10 sequence bits) `MaxWorkerID()`
is `2 ^ 32 - 1`, not `2 ^ 33 - 1`. -/
theorem C10_maxima_counterexample :
    (10 + 33 ≤ 63 ∧ MaxSequence (NewFactory 10 33 1 0) = 2 ^ 32 - 1 ∧
      MaxSequence (NewFactory 10 33 1 0) ≠ 2 ^ 33 - 1) ∧
    (33 + 10 ≤ 63 ∧ MaxWorkerID (NewFactory 33 10 1 0) = 2 ^ 32 - 1 ∧
      MaxWorkerID (NewFactory 33 10 1 0) ≠ 2 ^ 33 - 1) := by
  decide

/-! ## C7 -/

/-- C7. Worker-ID validation: for every factory and every 32-bit `workerID`,
`Factory.NewSnowflake` fails exactly when `workerID > MaxWorkerID()`, the error naming the
maximum and no generator being returned; so `workerID = MaxWorkerID()` succeeds and
`workerID = MaxWorkerID() + 1` fails; and on success the generator has the factory and
worker it was given, `WorkerID() = workerID`, tick 0 and sequence 0. -/
theorem C7_NewSnowflake_validates (f : Factory) (workerID : Nat) (h32 : workerID < 2 ^ 32) :
    ((f.NewSnowflake workerID).2 ≠ none ↔ workerID > MaxWorkerID f) ∧
    (workerID > MaxWorkerID f →
      f.NewSnowflake workerID = (none, some (Err.workerIDTooLarge (MaxWorkerID f)))) ∧
    (workerID = MaxWorkerID f → (f.NewSnowflake workerID).2 = none) ∧
    (workerID = MaxWorkerID f + 1 → (f.NewSnowflake workerID).2 ≠ none) ∧
    ((f.NewSnowflake workerID).2 = none →
      ∃ sf, f.NewSnowflake workerID = (some sf, none) ∧ sf.f = f ∧
        WorkerID sf = workerID ∧ sf.elapsedTime = 0 ∧ sf.sequence = 0) := by
  have _ := h32
  unfold Factory.NewSnowflake
  by_cases hw : workerID > MaxWorkerID f
  · simp [hw]
    omega
  · simp [hw, WorkerID]
    omega

/-- C7, at the default layout: worker 1023 is the maximum and is accepted. -/
theorem C7_NewSnowflake_validates_witness :
    (1023 : Nat) < 2 ^ 32 ∧
    (((NewFactory 10 12 1 0).NewSnowflake 1023).2 ≠ none ↔
      1023 > MaxWorkerID (NewFactory 10 12 1 0)) ∧
    (1023 > MaxWorkerID (NewFactory 10 12 1 0) →
      (NewFactory 10 12 1 0).NewSnowflake 1023
        = (none, some (Err.workerIDTooLarge (MaxWorkerID (NewFactory 10 12 1 0))))) ∧
    (1023 = MaxWorkerID (NewFactory 10 12 1 0) →
      ((NewFactory 10 12 1 0).NewSnowflake 1023).2 = none) ∧
    (1023 = MaxWorkerID (NewFactory 10 12 1 0) + 1 →
      ((NewFactory 10 12 1 0).NewSnowflake 1023).2 ≠ none) ∧
    (((NewFactory 10 12 1 0).NewSnowflake 1023).2 = none →
      ∃ sf, (NewFactory 10 12 1 0).NewSnowflake 1023 = (some sf, none) ∧
        sf.f = NewFactory 10 12 1 0 ∧
        WorkerID sf = 1023 ∧ sf.elapsedTime = 0 ∧ sf.sequence = 0) :=
  ⟨by decide, C7_NewSnowflake_validates (NewFactory 10 12 1 0) 1023 (by decide)⟩

/-! ## C5 -/

/-- C5. Regression rejection is atomic: in every generator state, when both the first
reading of the clock and the single second reading are below the stored tick, `Snowflake.ID`
returns `(0, InvalidSystemClock)`, leaves the generator exactly as it was and does not
sleep. -/
theorem C5_regression_rejected (sf : Snowflake) (k : Call)
    (h1 : sf.elapsedTime > k.c1) (h2 : sf.elapsedTime > k.c2) :
    (ID sf k).ret = (0, some Err.InvalidSystemClock) ∧ (ID sf k).sf = sf ∧
    (ID sf k).overtime = none := by
  unfold ID
  rw [if_neg (by omega), if_pos h1, if_pos h2]
  exact ⟨rfl, rfl, rfl⟩

/-- C5, at a concrete state: stored tick 10 and sequence 3, readings 9 and 8. -/
theorem C5_regression_rejected_witness :
    ((10 : Nat) > 9 ∧ (10 : Nat) > 8) ∧
    (ID ⟨NewFactory 10 12 1 0, 7, 10, 3⟩ ⟨9, 8, 0⟩).ret = (0, some Err.InvalidSystemClock) ∧
    (ID ⟨NewFactory 10 12 1 0, 7, 10, 3⟩ ⟨9, 8, 0⟩).sf = ⟨NewFactory 10 12 1 0, 7, 10, 3⟩ ∧
    (ID ⟨NewFactory 10 12 1 0, 7, 10, 3⟩ ⟨9, 8, 0⟩).overtime = none :=
  ⟨⟨by decide, by decide⟩,
    C5_regression_rejected ⟨NewFactory 10 12 1 0, 7, 10, 3⟩ ⟨9, 8, 0⟩ (by decide) (by decide)⟩


/-! ## The sequence mask -/

/-- The method `MaskSequence` applied to an incremented sequence: a reduction modulo
`2 ^ min sequenceBits 32`. -/
theorem MaskSequence_add32 (f : Factory) (q : Nat) :
    MaskSequence f (add32 q 1) = (q + 1) % 2 ^ min f.bitLenSequence 32 := by
  unfold MaskSequence add32
  rw [MaxSequence_eq, Nat.and_pow_two_sub_one_eq_mod]
  exact Nat.mod_mod_of_dvd _ (Nat.pow_dvd_pow 2 (Nat.min_le_right _ _))

theorem MaskSequence_le (f : Factory) (q : Nat) :
    MaskSequence f (add32 q 1) ≤ MaxSequence f := by
  rw [MaskSequence_add32, MaxSequence_eq]
  have h2 : 0 < 2 ^ min f.bitLenSequence 32 := Nat.pow_pos (by decide)
  have := Nat.mod_lt (q + 1) h2
  omega

/-- The increment of the largest sequence wraps to 0. -/
theorem MaskSequence_max (f : Factory) : MaskSequence f (add32 (MaxSequence f) 1) = 0 := by
  rw [MaskSequence_add32, MaxSequence_eq]
  have h2 : 0 < 2 ^ min f.bitLenSequence 32 := Nat.pow_pos (by decide)
  rw [Nat.sub_add_cancel h2]
  exact Nat.mod_self _

/-- An increment that does not wrap is the successor. -/
theorem MaskSequence_succ {f : Factory} {q : Nat} (hq : q ≤ MaxSequence f)
    (h0 : MaskSequence f (add32 q 1) ≠ 0) : MaskSequence f (add32 q 1) = q + 1 := by
  rw [MaskSequence_add32] at h0 ⊢
  rw [MaxSequence_eq] at hq
  have h2 : 0 < 2 ^ min f.bitLenSequence 32 := Nat.pow_pos (by decide)
  by_cases hlt : q + 1 < 2 ^ min f.bitLenSequence 32
  · exact Nat.mod_eq_of_lt hlt
  · have : q + 1 = 2 ^ min f.bitLenSequence 32 := by omega
    rw [this, Nat.mod_self] at h0
    exact absurd rfl h0

/-! ## C6 -/

/-- C6, as the code has it. Overflow backoff: for a generator whose sequence is
`MaxSequence()` and whose stored tick `L` is below `2 ^ 64 - 1`, a call that reads the
current tick `c = L` leaves the generator at tick `L + 1` and sequence 0 (factory and worker
unchanged), sleeps with an overtime of one tick, and returns what
`BuildID(workerID, L + 1, 0)` returns; when the factory has `workerBits + sequenceBits ≤ 63`
and the worker is at most `MaxWorkerID()`, the timestamp field
`id >> (sequenceBits + workerBits)` of an identifier so returned is `L + 1`. -/
theorem C6_overflow_backoff (sf : Snowflake) (k : Call)
    (hq : sf.sequence = MaxSequence sf.f) (hc : k.c1 = sf.elapsedTime)
    (hL : sf.elapsedTime < 2 ^ 64 - 1) :
    (ID sf k).sf = { sf with elapsedTime := sf.elapsedTime + 1, sequence := 0 } ∧
    (ID sf k).ret = BuildID sf.f sf.workerID (sf.elapsedTime + 1) 0 ∧
    (ID sf k).overtime = some 1 ∧
    ∀ (w s gapMs : Nat) (startTime : Int), sf.f = NewFactory w s gapMs startTime →
      w + s ≤ 63 → sf.workerID ≤ MaxWorkerID sf.f →
      ∀ id : Nat, (ID sf k).ret = (id, none) → id >>> (s + w) = sf.elapsedTime + 1 := by
  have hm : MaskSequence sf.f (add32 sf.sequence 1) = 0 := by
    rw [hq]
    exact MaskSequence_max sf.f
  have ha : add64 sf.elapsedTime 1 = sf.elapsedTime + 1 := add64_of_lt (by omega)
  have hs : sub64 (sf.elapsedTime + 1) sf.elapsedTime = 1 := by
    unfold sub64
    omega
  have hret : (ID sf k).ret = BuildID sf.f sf.workerID (sf.elapsedTime + 1) 0 := by
    unfold ID
    rw [if_neg (by omega), if_neg (by omega)]
    unfold increment
    simp only [hm, if_true, ha]
  refine ⟨?_, hret, ?_, ?_⟩
  · unfold ID
    rw [if_neg (by omega), if_neg (by omega)]
    unfold increment
    simp only [hm, if_true, ha]
  · unfold ID
    rw [if_neg (by omega), if_neg (by omega)]
    unfold increment
    simp only [hm, if_true, ha, hc, hs]
    rfl
  · intro w s gapMs startTime hf h hi id hid
    rw [hret, hf] at hid
    rw [hf] at hi
    have h0 : 0 ≤ MaxSequence (NewFactory w s gapMs startTime) := Nat.zero_le _
    by_cases he : sf.elapsedTime + 1 < 2 ^ (63 - s - w)
    · rw [BuildID_eq gapMs startTime h hi h0 he] at hid
      have hid1 : ((sf.elapsedTime + 1) * 2 ^ s + 0) * 2 ^ w + sf.workerID = id :=
        congrArg Prod.fst hid
      rw [← hid1]
      exact (fields_of_layout (Nat.pow_pos (by decide)) (lt_pow_of_le_MaxWorkerID hi)).1
    · rw [BuildID_over gapMs startTime h _ _ (by omega)] at hid
      have hid2 : some Err.overTheTimeLimit = none := congrArg Prod.snd hid
      exact absurd hid2 (by simp)

/-- C6 as amended, at a concrete state of the default layout: tick 10, sequence 4095. -/
theorem C6_overflow_backoff_witness :
    ((4095 : Nat) = MaxSequence (NewFactory 10 12 1 0) ∧ (10 : Nat) = 10 ∧
      (10 : Nat) < 2 ^ 64 - 1) ∧
    (ID ⟨NewFactory 10 12 1 0, 7, 10, 4095⟩ ⟨10, 10, 0⟩).sf
      = ⟨NewFactory 10 12 1 0, 7, 10 + 1, 0⟩ ∧
    (ID ⟨NewFactory 10 12 1 0, 7, 10, 4095⟩ ⟨10, 10, 0⟩).ret
      = BuildID (NewFactory 10 12 1 0) 7 (10 + 1) 0 ∧
    (ID ⟨NewFactory 10 12 1 0, 7, 10, 4095⟩ ⟨10, 10, 0⟩).overtime = some 1 ∧
    ∀ (w s gapMs : Nat) (startTime : Int),
      NewFactory 10 12 1 0 = NewFactory w s gapMs startTime →
      w + s ≤ 63 → 7 ≤ MaxWorkerID (NewFactory 10 12 1 0) →
      ∀ id : Nat, (ID ⟨NewFactory 10 12 1 0, 7, 10, 4095⟩ ⟨10, 10, 0⟩).ret = (id, none) →
        id >>> (s + w) = 10 + 1 :=
  ⟨⟨by decide, rfl, by decide⟩,
    C6_overflow_backoff ⟨NewFactory 10 12 1 0, 7, 10, 4095⟩ ⟨10, 10, 0⟩
      (by decide) rfl (by decide)⟩

/-- C6 fails at the last `uint64` tick: with stored tick `L = 2 ^ 64 - 1`, sequence
`MaxSequence() = 4095` and reading `c = L`, the increment of the tick wraps, the generator is
left at tick 0 (not `L + 1`), and the call succeeds with the identifier
`BuildID(7, 0, 0) = 7`, whose timestamp field is 0. -/
theorem C6_overflow_backoff_counterexample :
    (4095 : Nat) = MaxSequence (NewFactory 10 12 1 0) ∧
    (ID ⟨NewFactory 10 12 1 0, 7, 2 ^ 64 - 1, 4095⟩ ⟨2 ^ 64 - 1, 2 ^ 64 - 1, 0⟩).sf
      = ⟨NewFactory 10 12 1 0, 7, 0, 0⟩ ∧
    (ID ⟨NewFactory 10 12 1 0, 7, 2 ^ 64 - 1, 4095⟩ ⟨2 ^ 64 - 1, 2 ^ 64 - 1, 0⟩).sf.elapsedTime
      ≠ (2 ^ 64 - 1) + 1 ∧
    (ID ⟨NewFactory 10 12 1 0, 7, 2 ^ 64 - 1, 4095⟩ ⟨2 ^ 64 - 1, 2 ^ 64 - 1, 0⟩).ret
      = (7, none) ∧
    (7 : Nat) >>> (12 + 10) = 0 ∧
    BuildID (NewFactory 10 12 1 0) 7 ((2 ^ 64 - 1) + 1) 0 = (0, some Err.overTheTimeLimit) := by
  decide


/-! ## One call moves the rank up -/

/-- A successful `BuildID` on a state in range returns the rank of the state. -/
theorem BuildID_rank {w s gapMs : Nat} {startTime : Int} (h : w + s ≤ 63) (sf : Snowflake)
    (hf : sf.f = NewFactory w s gapMs startTime) (hin : InRange sf)
    (hok : (BuildID sf.f sf.workerID sf.elapsedTime sf.sequence).2 = none) :
    (BuildID sf.f sf.workerID sf.elapsedTime sf.sequence).1 = rank sf := by
  obtain ⟨hq, hi, -⟩ := hin
  unfold rank
  rw [hf] at hq hi hok ⊢
  by_cases he : sf.elapsedTime < 2 ^ (63 - s - w)
  · rw [BuildID_eq gapMs startTime h hi hq he]
    rfl
  · rw [BuildID_over gapMs startTime h _ _ (by omega)] at hok
    exact absurd hok (by simp)

/-- A later tick outranks every sequence of an earlier tick. -/
theorem key_lt_of_tick_lt {s L q L' : Nat} (q' : Nat) (hq : q < 2 ^ s) (hL : L < L') :
    L * 2 ^ s + q < L' * 2 ^ s + q' := by
  have h1 : (L + 1) * 2 ^ s ≤ L' * 2 ^ s := Nat.mul_le_mul_right _ hL
  rw [Nat.add_mul, Nat.one_mul] at h1
  omega

theorem rank_lt_of_key_lt (sf : Snowflake) {sf1 : Snowflake} (hf : sf1.f = sf.f)
    (hi : sf1.workerID = sf.workerID)
    (hk : sf.elapsedTime * 2 ^ sf.f.bitLenSequence + sf.sequence
      < sf1.elapsedTime * 2 ^ sf.f.bitLenSequence + sf1.sequence) :
    rank sf < rank sf1 := by
  unfold rank
  rw [hf, hi]
  have hpos : 0 < 2 ^ sf.f.bitLenWorkerID := Nat.pow_pos (by decide)
  have := Nat.mul_lt_mul_of_pos_right hk hpos
  omega

/-- The advance path: a reading above the stored tick. -/
theorem advance_Advances {w s gapMs : Nat} {startTime : Int} (h : w + s ≤ 63)
    {sf : Snowflake} (hf : sf.f = NewFactory w s gapMs startTime) (hin : InRange sf)
    {c r : Nat} (hlt : sf.elapsedTime < c) (hc : c < 2 ^ 64 - 1) (hr : r ≤ MaxSequence sf.f) :
    Advances sf
      { sf := { sf with elapsedTime := c, sequence := r },
        ret := BuildID sf.f sf.workerID c r, overtime := none } := by
  have hin1 : InRange { sf with elapsedTime := c, sequence := r } :=
    ⟨hr, hin.2.1, by show c ≤ 2 ^ 64 - 1; omega⟩
  have hlt1 : rank sf < rank { sf with elapsedTime := c, sequence := r } :=
    rank_lt_of_key_lt sf rfl rfl (key_lt_of_tick_lt r (lt_pow_of_le_MaxSequence hin.1) hlt)
  refine ⟨rfl, rfl, hin1, Nat.le_of_lt hlt1, ?_⟩
  intro hok
  exact ⟨hlt1, BuildID_rank h { sf with elapsedTime := c, sequence := r } hf hin1 hok⟩

/-- The increment path: lines 114 to 120, reached with a reading that is not below the
stored tick. -/
theorem increment_Advances {w s gapMs : Nat} {startTime : Int} (h : w + s ≤ 63)
    {sf : Snowflake} (hf : sf.f = NewFactory w s gapMs startTime) (hin : InRange sf)
    {c : Nat} (hle : sf.elapsedTime ≤ c) (hc : c < 2 ^ 64 - 1) :
    Advances sf (increment sf c) := by
  unfold increment
  by_cases h0 : MaskSequence sf.f (add32 sf.sequence 1) = 0
  · simp only [h0, if_true]
    have ha : add64 sf.elapsedTime 1 = sf.elapsedTime + 1 := add64_of_lt (by omega)
    rw [ha]
    have hin1 : InRange { sf with sequence := 0, elapsedTime := sf.elapsedTime + 1 } :=
      ⟨Nat.zero_le _, hin.2.1, by show sf.elapsedTime + 1 ≤ 2 ^ 64 - 1; omega⟩
    have hlt1 : rank sf < rank { sf with sequence := 0, elapsedTime := sf.elapsedTime + 1 } :=
      rank_lt_of_key_lt sf rfl rfl
        (key_lt_of_tick_lt 0 (lt_pow_of_le_MaxSequence hin.1) (Nat.lt_succ_self _))
    refine ⟨rfl, rfl, hin1, Nat.le_of_lt hlt1, ?_⟩
    intro hok
    exact ⟨hlt1, BuildID_rank h
      { sf with sequence := 0, elapsedTime := sf.elapsedTime + 1 } hf hin1 hok⟩
  · simp only [h0, if_false]
    have hs := MaskSequence_succ hin.1 h0
    have hin1 : InRange { sf with sequence := MaskSequence sf.f (add32 sf.sequence 1) } :=
      ⟨MaskSequence_le sf.f sf.sequence, hin.2.1, hin.2.2⟩
    have hlt1 : rank sf
        < rank { sf with sequence := MaskSequence sf.f (add32 sf.sequence 1) } := by
      refine rank_lt_of_key_lt sf rfl rfl ?_
      show _ < sf.elapsedTime * 2 ^ sf.f.bitLenSequence
        + MaskSequence sf.f (add32 sf.sequence 1)
      omega
    refine ⟨rfl, rfl, hin1, Nat.le_of_lt hlt1, ?_⟩
    intro hok
    exact ⟨hlt1, BuildID_rank h
      { sf with sequence := MaskSequence sf.f (add32 sf.sequence 1) } hf hin1 hok⟩

/-- Every call of `Snowflake.ID` on a state in range, with readings below `2 ^ 64 - 1` and
a draw of at most `MaxSequence()`, keeps the state in range and does not lower its rank; when
it succeeds the rank has gone up and is the identifier returned. -/
theorem ID_Advances {w s gapMs : Nat} {startTime : Int} (h : w + s ≤ 63)
    {sf : Snowflake} (hf : sf.f = NewFactory w s gapMs startTime) (hin : InRange sf)
    {k : Call} (h1 : k.c1 < 2 ^ 64 - 1) (h2 : k.c2 < 2 ^ 64 - 1)
    (hr : k.r ≤ MaxSequence sf.f) : Advances sf (ID sf k) := by
  unfold ID
  by_cases hlt : sf.elapsedTime < k.c1
  · rw [if_pos hlt]
    exact advance_Advances h hf hin hlt h1 hr
  · rw [if_neg hlt]
    by_cases hgt : sf.elapsedTime > k.c1
    · rw [if_pos hgt]
      by_cases hgt2 : sf.elapsedTime > k.c2
      · rw [if_pos hgt2]
        exact ⟨rfl, rfl, hin, Nat.le_refl _, fun hok => absurd hok (by simp)⟩
      · rw [if_neg hgt2]
        exact increment_Advances h hf hin (by omega) h2
    · rw [if_neg hgt]
      exact increment_Advances h hf hin (by omega) h1


/-! ## A series of calls -/

/-- The generator built by a successful `Factory.NewSnowflake` is in range. -/
theorem NewSnowflake_InRange {f : Factory} {workerID : Nat} {sf : Snowflake}
    (hsf : f.NewSnowflake workerID = (some sf, none)) :
    sf.f = f ∧ sf.workerID = workerID ∧ InRange sf := by
  unfold Factory.NewSnowflake at hsf
  by_cases hw : workerID > MaxWorkerID f
  · simp [hw] at hsf
  · simp only [hw, if_false, Prod.mk.injEq, Option.some.injEq, and_true] at hsf
    subst hsf
    exact ⟨rfl, rfl, Nat.zero_le _, Nat.le_of_not_gt hw, Nat.zero_le _⟩

/-- From a state in range, under readings below `2 ^ 64 - 1` and draws of at most
`MaxSequence()`, every identifier issued is above the rank of the starting state, and the
identifiers issued are strictly increasing in call order. -/
theorem issued_increasing {w s gapMs : Nat} {startTime : Int} (h : w + s ≤ 63)
    (ks : List Call) :
    ∀ sf : Snowflake, sf.f = NewFactory w s gapMs startTime → InRange sf →
      (∀ k ∈ ks, k.c1 < 2 ^ 64 - 1 ∧ k.c2 < 2 ^ 64 - 1 ∧
        k.r ≤ MaxSequence (NewFactory w s gapMs startTime)) →
      (∀ id ∈ issued sf ks, rank sf < id) ∧ List.Pairwise (· < ·) (issued sf ks) := by
  induction ks with
  | nil =>
    intro sf _ _ _
    exact ⟨fun id hid => absurd hid (List.not_mem_nil id), List.Pairwise.nil⟩
  | cons k ks ih =>
    intro sf hf hin hks
    obtain ⟨hk1, hk2, hkr⟩ := hks k (List.mem_cons_self k ks)
    obtain ⟨hf1, -, hin1, hle, hok⟩ := ID_Advances h hf hin hk1 hk2 (by rw [hf]; exact hkr)
    obtain ⟨hgt, hpw⟩ := ih (ID sf k).sf (hf1.trans hf) hin1
      (fun k1 hk1 => hks k1 (List.mem_cons_of_mem k hk1))
    unfold issued
    by_cases ok : (ID sf k).ret.2 = none
    · obtain ⟨hlt, hid⟩ := hok ok
      rw [if_pos ok]
      constructor
      · intro id hmem
        rcases List.mem_cons.mp hmem with rfl | hmem
        · omega
        · exact Nat.lt_trans hlt (hgt id hmem)
      · refine List.Pairwise.cons ?_ hpw
        intro id hmem
        rw [hid]
        exact hgt id hmem
    · rw [if_neg ok]
      exact ⟨fun id hmem => Nat.lt_of_le_of_lt hle (hgt id hmem), hpw⟩


/-- From a state in range, under readings below `2 ^ 64 - 1` and draws of at most
`MaxSequence()`, every state a series of calls reaches is in range. -/
theorem final_InRange {w s gapMs : Nat} {startTime : Int} (h : w + s ≤ 63)
    (ks : List Call) :
    ∀ sf : Snowflake, sf.f = NewFactory w s gapMs startTime → InRange sf →
      (∀ k ∈ ks, k.c1 < 2 ^ 64 - 1 ∧ k.c2 < 2 ^ 64 - 1 ∧
        k.r ≤ MaxSequence (NewFactory w s gapMs startTime)) →
      InRange (final sf ks) := by
  induction ks with
  | nil =>
    intro sf _ hin _
    exact hin
  | cons k ks ih =>
    intro sf hf hin hks
    obtain ⟨hk1, hk2, hkr⟩ := hks k (List.mem_cons_self k ks)
    obtain ⟨hf1, -, hin1, -, -⟩ := ID_Advances h hf hin hk1 hk2 (by rw [hf]; exact hkr)
    exact ih (ID sf k).sf (hf1.trans hf) hin1
      (fun k1 hk1 => hks k1 (List.mem_cons_of_mem k hk1))

/-- The sequence stays in range under arbitrary readings, for every factory, as long as
every draw is at most `MaxSequence()`. -/
theorem ID_sequence_le (sf : Snowflake) (k : Call) (hq : sf.sequence ≤ MaxSequence sf.f)
    (hr : k.r ≤ MaxSequence sf.f) :
    (ID sf k).sf.f = sf.f ∧ (ID sf k).sf.sequence ≤ MaxSequence sf.f := by
  have hinc : ∀ c : Nat, (increment sf c).sf.f = sf.f ∧
      (increment sf c).sf.sequence ≤ MaxSequence sf.f := by
    intro c
    unfold increment
    by_cases h0 : MaskSequence sf.f (add32 sf.sequence 1) = 0
    · simp only [h0, if_true]
      exact ⟨trivial, Nat.zero_le _⟩
    · simp only [h0, if_false]
      exact ⟨trivial, MaskSequence_le sf.f sf.sequence⟩
  unfold ID
  by_cases hlt : sf.elapsedTime < k.c1
  · rw [if_pos hlt]
    exact ⟨rfl, hr⟩
  · rw [if_neg hlt]
    by_cases hgt : sf.elapsedTime > k.c1
    · rw [if_pos hgt]
      by_cases hgt2 : sf.elapsedTime > k.c2
      · rw [if_pos hgt2]
        exact ⟨rfl, hq⟩
      · rw [if_neg hgt2]
        exact hinc k.c2
    · rw [if_neg hgt]
      exact hinc k.c1

/-- The sequence range invariant along a series of calls whose draws are at most
`MaxSequence()`. -/
theorem final_sequence_le (ks : List Call) :
    ∀ sf : Snowflake, sf.sequence ≤ MaxSequence sf.f →
      (∀ k ∈ ks, k.r ≤ MaxSequence sf.f) →
      (final sf ks).f = sf.f ∧ (final sf ks).sequence ≤ MaxSequence sf.f := by
  induction ks with
  | nil =>
    intro sf hq _
    exact ⟨rfl, hq⟩
  | cons k ks ih =>
    intro sf hq hks
    obtain ⟨hf1, hq1⟩ := ID_sequence_le sf k hq (hks k (List.mem_cons_self k ks))
    have := ih (ID sf k).sf (by rw [hf1]; exact hq1)
      (fun k1 hk1 => by rw [hf1]; exact hks k1 (List.mem_cons_of_mem k hk1))
    rw [hf1] at this
    exact this

/-! ## C3 -/

/-- C3, as the code has it. Monotonicity: for a factory with `workerBits + sequenceBits ≤ 63`,
a generator built from it by `Factory.NewSnowflake`, and a finite series of `Snowflake.ID`
calls executed one after another in which every clock reading is below `2 ^ 64 - 1` and
every draw of `generateRandomSequence` is at most `MaxSequence()`, the identifiers returned
by the successful calls, in call order, are non-decreasing. -/
theorem C3_issued_nondecreasing (w s gapMs : Nat) (startTime : Int) (h : w + s ≤ 63)
    (workerID : Nat) (sf : Snowflake)
    (hsf : (NewFactory w s gapMs startTime).NewSnowflake workerID = (some sf, none))
    (ks : List Call)
    (hks : ∀ k ∈ ks, k.c1 < 2 ^ 64 - 1 ∧ k.c2 < 2 ^ 64 - 1 ∧
      k.r ≤ MaxSequence (NewFactory w s gapMs startTime)) :
    List.Pairwise (· ≤ ·) (issued sf ks) := by
  obtain ⟨hf, -, hin⟩ := NewSnowflake_InRange hsf
  exact (issued_increasing h ks sf hf hin hks).2.imp Nat.le_of_lt

/-- C3 as amended, on a series that advances, holds, meets a transient and a lasting
regression, and advances again. -/
theorem C3_issued_nondecreasing_witness :
    (10 + 12 ≤ 63 ∧
      (NewFactory 10 12 1 0).NewSnowflake 7 = (some ⟨NewFactory 10 12 1 0, 7, 0, 0⟩, none) ∧
      ∀ k ∈ [(⟨5, 5, 3⟩ : Call), ⟨5, 5, 0⟩, ⟨4, 5, 0⟩, ⟨3, 3, 0⟩, ⟨9, 9, 8⟩],
        k.c1 < 2 ^ 64 - 1 ∧ k.c2 < 2 ^ 64 - 1 ∧ k.r ≤ MaxSequence (NewFactory 10 12 1 0)) ∧
    List.Pairwise (· ≤ ·) (issued ⟨NewFactory 10 12 1 0, 7, 0, 0⟩
      [(⟨5, 5, 3⟩ : Call), ⟨5, 5, 0⟩, ⟨4, 5, 0⟩, ⟨3, 3, 0⟩, ⟨9, 9, 8⟩]) :=
  ⟨⟨by decide, by decide, by decide⟩,
    C3_issued_nondecreasing 10 12 1 0 (by decide) 7 ⟨NewFactory 10 12 1 0, 7, 0, 0⟩
      (by decide) [(⟨5, 5, 3⟩ : Call), ⟨5, 5, 0⟩, ⟨4, 5, 0⟩, ⟨3, 3, 0⟩, ⟨9, 9, 8⟩]
      (by decide)⟩

/-- C3 fails when the clock reads `2 ^ 64 - 1`, the value of `CurrentElapsedTime()` one tick
before the epoch. Factory with 0 worker bits and 4 sequence bits (`MaxSequence() = 15`),
worker 0: the first call, at tick 1 with draw 0, returns 16; the call at tick `2 ^ 64 - 1`
with draw 8 fails in `BuildID` but stores that tick; eight more calls at the same tick fail
while the sequence runs from 9 to 15 and wraps, which wraps the stored tick to 0, and the
last of them returns 0. The identifiers issued are 16, then 0. -/
theorem C3_issued_nondecreasing_counterexample :
    0 + 4 ≤ 63 ∧
    (NewFactory 0 4 1 0).NewSnowflake 0 = (some ⟨NewFactory 0 4 1 0, 0, 0, 0⟩, none) ∧
    (∀ k ∈ [(⟨1, 1, 0⟩ : Call), ⟨2 ^ 64 - 1, 2 ^ 64 - 1, 8⟩]
        ++ List.replicate 8 ⟨2 ^ 64 - 1, 2 ^ 64 - 1, 0⟩,
      k.c1 < 2 ^ 64 ∧ k.c2 < 2 ^ 64 ∧ k.r < 9) ∧
    issued ⟨NewFactory 0 4 1 0, 0, 0, 0⟩
      ([(⟨1, 1, 0⟩ : Call), ⟨2 ^ 64 - 1, 2 ^ 64 - 1, 8⟩]
        ++ List.replicate 8 ⟨2 ^ 64 - 1, 2 ^ 64 - 1, 0⟩) = [16, 0] ∧
    ¬ List.Pairwise (· ≤ ·) (issued ⟨NewFactory 0 4 1 0, 0, 0, 0⟩
      ([(⟨1, 1, 0⟩ : Call), ⟨2 ^ 64 - 1, 2 ^ 64 - 1, 8⟩]
        ++ List.replicate 8 ⟨2 ^ 64 - 1, 2 ^ 64 - 1, 0⟩)) := by
  decide

/-! ## C4 -/

/-- C4, as the code has it. Uniqueness for the default layout: for a generator returned by
the package-level `NewSnowflake(workerID)` and a finite series of `Snowflake.ID` calls
executed one after another in which every clock reading is below `2 ^ 64 - 1` (draws of
`generateRandomSequence(9)` being below 9), each identifier returned by a successful call is
strictly greater than every identifier returned before it; the identifiers are pairwise
distinct. -/
theorem C4_default_issued_increasing (workerID : Nat) (sf : Snowflake)
    (hsf : NewSnowflake workerID = (some sf, none)) (ks : List Call)
    (hks : ∀ k ∈ ks, k.c1 < 2 ^ 64 - 1 ∧ k.c2 < 2 ^ 64 - 1 ∧ k.r < 9) :
    List.Pairwise (· < ·) (issued sf ks) ∧ (issued sf ks).Nodup := by
  obtain ⟨hf, -, hin⟩ := NewSnowflake_InRange hsf
  have hmax : MaxSequence (NewFactory 10 12 1 defaultStartTime) = 4095 := by decide
  have h63 : 10 + 12 ≤ 63 := by decide
  have hinc := (issued_increasing h63 ks sf hf hin
    (fun k hk => ⟨(hks k hk).1, (hks k hk).2.1, by rw [hmax]; have := (hks k hk).2.2; omega⟩)).2
  exact ⟨hinc, hinc.imp Nat.ne_of_lt⟩

/-- C4 as amended, on a series that advances, holds, meets a transient and a lasting
regression, and advances again. -/
theorem C4_default_issued_increasing_witness :
    (NewSnowflake 7 = (some ⟨NewFactory 10 12 1 defaultStartTime, 7, 0, 0⟩, none) ∧
      ∀ k ∈ [(⟨5, 5, 3⟩ : Call), ⟨5, 5, 0⟩, ⟨4, 5, 0⟩, ⟨3, 3, 0⟩, ⟨9, 9, 8⟩],
        k.c1 < 2 ^ 64 - 1 ∧ k.c2 < 2 ^ 64 - 1 ∧ k.r < 9) ∧
    List.Pairwise (· < ·) (issued ⟨NewFactory 10 12 1 defaultStartTime, 7, 0, 0⟩
      [(⟨5, 5, 3⟩ : Call), ⟨5, 5, 0⟩, ⟨4, 5, 0⟩, ⟨3, 3, 0⟩, ⟨9, 9, 8⟩]) ∧
    (issued ⟨NewFactory 10 12 1 defaultStartTime, 7, 0, 0⟩
      [(⟨5, 5, 3⟩ : Call), ⟨5, 5, 0⟩, ⟨4, 5, 0⟩, ⟨3, 3, 0⟩, ⟨9, 9, 8⟩]).Nodup :=
  ⟨⟨by decide, by decide⟩,
    C4_default_issued_increasing 7 ⟨NewFactory 10 12 1 defaultStartTime, 7, 0, 0⟩
      (by decide) [(⟨5, 5, 3⟩ : Call), ⟨5, 5, 0⟩, ⟨4, 5, 0⟩, ⟨3, 3, 0⟩, ⟨9, 9, 8⟩]
      (by decide)⟩

set_option maxRecDepth 100000 in
/-- C4 fails when the clock reads `2 ^ 64 - 1`, the value of `CurrentElapsedTime()` one tick
before the epoch. Default layout, worker 7: the first call, at tick 5 with draw 3, returns
20974599; the call at tick `2 ^ 64 - 1` with draw 0 fails in `BuildID` but stores that tick;
4096 more calls at the same tick fail while the sequence runs up to 4095 and wraps, which
wraps the stored tick to 0, and the last of them returns 7; a call at tick 5 with draw 3
then returns 20974599 again. -/
theorem C4_default_issued_increasing_counterexample :
    NewSnowflake 7 = (some ⟨NewFactory 10 12 1 defaultStartTime, 7, 0, 0⟩, none) ∧
    (∀ k ∈ [(⟨5, 5, 3⟩ : Call), ⟨2 ^ 64 - 1, 2 ^ 64 - 1, 0⟩]
        ++ List.replicate 4096 ⟨2 ^ 64 - 1, 2 ^ 64 - 1, 0⟩ ++ [⟨5, 5, 3⟩],
      k.c1 < 2 ^ 64 ∧ k.c2 < 2 ^ 64 ∧ k.r < 9) ∧
    issued ⟨NewFactory 10 12 1 defaultStartTime, 7, 0, 0⟩
      ([(⟨5, 5, 3⟩ : Call), ⟨2 ^ 64 - 1, 2 ^ 64 - 1, 0⟩]
        ++ List.replicate 4096 ⟨2 ^ 64 - 1, 2 ^ 64 - 1, 0⟩ ++ [⟨5, 5, 3⟩])
      = [20974599, 7, 20974599] ∧
    ¬ List.Pairwise (· < ·) [20974599, 7, 20974599] ∧
    ¬ List.Pairwise (· ≠ ·) [20974599, 7, 20974599] := by
  decide!

/-! ## C9 -/

/-- C9 at a failing input. Factory with 0 worker bits and 2 sequence bits
(`MaxSequence() = 3`), worker 0, fresh generator: the first call, at tick 1 with the draw 8
of `generateRandomSequence(9)`, stores the sequence 8, above `MaxSequence()`. The identifier
it returns is 12, whose timestamp field `12 >> 2` is 3 and not the tick 1; a second call at
tick 2 with draw 0 returns 8, below the first. -/
theorem C9_sequence_above_max :
    0 + 2 ≤ 63 ∧
    (NewFactory 0 2 1 0).NewSnowflake 0 = (some ⟨NewFactory 0 2 1 0, 0, 0, 0⟩, none) ∧
    MaxSequence (NewFactory 0 2 1 0) = 3 ∧
    (8 : Nat) < 9 ∧
    (ID ⟨NewFactory 0 2 1 0, 0, 0, 0⟩ ⟨1, 1, 8⟩).sf = ⟨NewFactory 0 2 1 0, 0, 1, 8⟩ ∧
    ¬ (ID ⟨NewFactory 0 2 1 0, 0, 0, 0⟩ ⟨1, 1, 8⟩).sf.sequence
        ≤ MaxSequence (NewFactory 0 2 1 0) ∧
    (ID ⟨NewFactory 0 2 1 0, 0, 0, 0⟩ ⟨1, 1, 8⟩).ret = (12, none) ∧
    (12 : Nat) >>> (2 + 0) = 3 ∧
    issued ⟨NewFactory 0 2 1 0, 0, 0, 0⟩ [⟨1, 1, 8⟩, ⟨2, 2, 0⟩] = [12, 8] := by
  decide

/-! ## C11 -/

/-- The `uint32` expression `uint32(b2)<<8 + uint32(b3)` on two bytes. -/
theorem add32_shl32_bytes (b2 b3 : Fin 256) :
    add32 (shl32 b2.val 8) b3.val = b2.val * 256 + b3.val := by
  have h2 := b2.isLt
  have h3 := b3.isLt
  rw [shl32_eq]
  unfold add32
  omega

/-- C11, as the code has it. IP derivation: `FromIP(nil) = 0`; for every 4-byte address
`b0.b1.b2.b3`, given in 4 bytes or in its 16-byte IPv4-mapped form, `FromIP` returns
`b2 * 256 + b3`, which is at most 65535; and `FromIP(192.168.12.34) = 12 * 256 + 34 = 3106`. -/
theorem C11_FromIP_ipv4 :
    FromIP none = some 0 ∧
    (∀ b0 b1 b2 b3 : Fin 256,
      FromIP (some [b0, b1, b2, b3]) = some (b2.val * 256 + b3.val) ∧
      FromIP (some [0, 0, 0, 0, 0, 0, 0, 0, 0, 0, 255, 255, b0, b1, b2, b3])
        = some (b2.val * 256 + b3.val) ∧
      b2.val * 256 + b3.val ≤ 65535) ∧
    FromIP (some [192, 168, 12, 34]) = some 3106 ∧ 12 * 256 + 34 = 3106 := by
  refine ⟨rfl, ?_, by decide, by decide⟩
  intro b0 b1 b2 b3
  refine ⟨?_, ?_, ?_⟩
  · show some (add32 (shl32 b2.val 8) b3.val) = _
    rw [add32_shl32_bytes]
  · show some (add32 (shl32 b2.val 8) b3.val) = _
    rw [add32_shl32_bytes]
  · have h2 := b2.isLt
    have h3 := b3.isLt
    omega

/-- C11 fails on its example: `FromIP(192.168.12.34)` is 3106, not 3108. -/
theorem C11_FromIP_ipv4_counterexample :
    FromIP (some [192, 168, 12, 34]) = some 3106 ∧
    FromIP (some [192, 168, 12, 34]) ≠ some 3108 := by
  decide

/-! ## C12 -/

/-- C12 at failing inputs. On a non-nil slice that is not an IPv4 address `To4` returns nil
and `FromIP` indexes it: a slice of three bytes, the empty slice, and the 16-byte IPv6
loopback address `::1` all end in a run-time panic, not in the result 0. -/
theorem C12_FromIP_panics :
    (To4 (some [1, 2, 3]) = none ∧ FromIP (some [1, 2, 3]) = none) ∧
    (To4 (some []) = none ∧ FromIP (some []) = none) ∧
    (To4 (some [0, 0, 0, 0, 0, 0, 0, 0, 0, 0, 0, 0, 0, 0, 0, 1]) = none ∧
      FromIP (some [0, 0, 0, 0, 0, 0, 0, 0, 0, 0, 0, 0, 0, 0, 0, 1]) = none) ∧
    FromIP (some [1, 2, 3]) ≠ some 0 := by
  decide

/-- Every non-nil slice that `To4` does not accept makes `FromIP` panic. -/
theorem FromIP_of_To4_none (bs : List (Fin 256)) (h : To4 (some bs) = none) :
    FromIP (some bs) = none := by
  unfold FromIP
  simp only [h]

/-! ## C13 -/

/-- The timestamp width of `NewFactory` for arbitrary `uint` widths: `63 - s - w` modulo
`2 ^ 64`. -/
theorem NewFactory_bitLenTimestamp_wrap {w s : Nat} (gapMs : Nat) (startTime : Int)
    (hw : w < 2 ^ 64) (hs : s < 2 ^ 64) :
    (NewFactory w s gapMs startTime).bitLenTimestamp
      = (2 ^ 64 + 2 ^ 64 + 63 - s - w) % 2 ^ 64 := by
  show sub64 (sub64 63 s) w = _
  unfold sub64
  omega

/-- C13, as the code has it. `NewFactory` has no validation and no error result: for every
pair of `uint` widths it returns a factory carrying the two widths as given and the
timestamp width `63 - sequenceBits - workerIDBits` taken modulo `2 ^ 64`. The three widths
sum to 63 when `workerIDBits + sequenceBits ≤ 63`; the timestamp width is at least 1 when
the sum is at most 62 and is 0 when the sum is 63; and when the sum exceeds 63 a factory is
still produced, whose three widths do not sum to 63. -/
theorem C13_NewFactory_widths (w s gapMs : Nat) (startTime : Int)
    (hw : w < 2 ^ 64) (hs : s < 2 ^ 64) :
    (NewFactory w s gapMs startTime).bitLenWorkerID = w ∧
    (NewFactory w s gapMs startTime).bitLenSequence = s ∧
    (NewFactory w s gapMs startTime).bitLenTimestamp
      = (2 ^ 64 + 2 ^ 64 + 63 - s - w) % 2 ^ 64 ∧
    (w + s ≤ 63 →
      (NewFactory w s gapMs startTime).bitLenWorkerID
        + (NewFactory w s gapMs startTime).bitLenSequence
        + (NewFactory w s gapMs startTime).bitLenTimestamp = 63) ∧
    (w + s ≤ 62 → 1 ≤ (NewFactory w s gapMs startTime).bitLenTimestamp) ∧
    (w + s = 63 → (NewFactory w s gapMs startTime).bitLenTimestamp = 0) ∧
    (63 < w + s →
      (NewFactory w s gapMs startTime).bitLenWorkerID
        + (NewFactory w s gapMs startTime).bitLenSequence
        + (NewFactory w s gapMs startTime).bitLenTimestamp ≠ 63) := by
  have ht := NewFactory_bitLenTimestamp_wrap gapMs startTime hw hs
  refine ⟨rfl, rfl, ht, ?_, ?_, ?_, ?_⟩
  · intro h
    show w + s + (NewFactory w s gapMs startTime).bitLenTimestamp = 63
    rw [ht]
    omega
  · intro h
    rw [ht]
    omega
  · intro h
    rw [ht]
    omega
  · intro h
    show w + s + (NewFactory w s gapMs startTime).bitLenTimestamp ≠ 63
    omega

/-- C13 as amended, at the default layout. -/
theorem C13_NewFactory_widths_witness :
    ((10 : Nat) < 2 ^ 64 ∧ (12 : Nat) < 2 ^ 64) ∧
    (NewFactory 10 12 1 0).bitLenWorkerID = 10 ∧
    (NewFactory 10 12 1 0).bitLenSequence = 12 ∧
    (NewFactory 10 12 1 0).bitLenTimestamp = (2 ^ 64 + 2 ^ 64 + 63 - 12 - 10) % 2 ^ 64 ∧
    (10 + 12 ≤ 63 →
      (NewFactory 10 12 1 0).bitLenWorkerID + (NewFactory 10 12 1 0).bitLenSequence
        + (NewFactory 10 12 1 0).bitLenTimestamp = 63) ∧
    (10 + 12 ≤ 62 → 1 ≤ (NewFactory 10 12 1 0).bitLenTimestamp) ∧
    (10 + 12 = 63 → (NewFactory 10 12 1 0).bitLenTimestamp = 0) ∧
    (63 < 10 + 12 →
      (NewFactory 10 12 1 0).bitLenWorkerID + (NewFactory 10 12 1 0).bitLenSequence
        + (NewFactory 10 12 1 0).bitLenTimestamp ≠ 63) :=
  ⟨⟨by decide, by decide⟩, C13_NewFactory_widths 10 12 1 0 (by decide) (by decide)⟩

/-- C13 fails: `NewFactory(40, 30, 1, t)`, whose widths sum to 70, returns a factory with
timestamp width `2 ^ 64 - 7`, and `NewFactory(31, 32, 1, t)`, whose widths sum to 63,
returns a factory with timestamp width 0. -/
theorem C13_NewFactory_widths_counterexample :
    (40 + 30 ≥ 63 ∧
      NewFactory 40 30 1 0
        = { bitLenWorkerID := 40, bitLenTimestamp := 2 ^ 64 - 7, bitLenSequence := 30,
            startTime := 0, unit := 1000000 } ∧
      (NewFactory 40 30 1 0).bitLenWorkerID + (NewFactory 40 30 1 0).bitLenSequence
        + (NewFactory 40 30 1 0).bitLenTimestamp ≠ 63) ∧
    (31 + 32 ≥ 63 ∧
      NewFactory 31 32 1 0
        = { bitLenWorkerID := 31, bitLenTimestamp := 0, bitLenSequence := 32,
            startTime := 0, unit := 1000000 } ∧
      ¬ 1 ≤ (NewFactory 31 32 1 0).bitLenTimestamp) := by
  decide

/-! ## C19 -/

/-- A timestamp width of 64 or more makes the limit `1<<bitLenTimestamp` of `BuildID`
zero. -/
theorem shl64_one_of_ge {n : Nat} (h : 64 ≤ n) : shl64 1 n = 0 := by
  rw [shl64_eq, Nat.one_mul]
  exact Nat.mod_eq_zero_of_dvd (Nat.pow_dvd_pow 2 h)

/-- With a zero limit `BuildID` rejects every tick. -/
theorem BuildID_of_limit_zero {f : Factory} (h : shl64 1 f.bitLenTimestamp = 0)
    (workerID elapsedTime sequence : Nat) :
    BuildID f workerID elapsedTime sequence = (0, some Err.overTheTimeLimit) := by
  unfold BuildID
  rw [h, if_pos (Nat.zero_le _)]

/-- When `BuildID` rejects every tick, every call of `Snowflake.ID` fails. -/
theorem ID_fails_of_BuildID_fails (sf : Snowflake)
    (h : ∀ workerID elapsedTime sequence : Nat,
      BuildID sf.f workerID elapsedTime sequence = (0, some Err.overTheTimeLimit))
    (k : Call) : (ID sf k).ret.1 = 0 ∧ (ID sf k).ret.2 ≠ none := by
  have hinc : ∀ c : Nat, (increment sf c).ret.1 = 0 ∧ (increment sf c).ret.2 ≠ none := by
    intro c
    unfold increment
    by_cases h0 : MaskSequence sf.f (add32 sf.sequence 1) = 0
    · simp only [h0, if_true, h]
      exact ⟨trivial, by simp⟩
    · simp only [h0, if_false, h]
      exact ⟨trivial, by simp⟩
  unfold ID
  by_cases hlt : sf.elapsedTime < k.c1
  · rw [if_pos hlt]
    simp only [h]
    exact ⟨trivial, by simp⟩
  · rw [if_neg hlt]
    by_cases hgt : sf.elapsedTime > k.c1
    · rw [if_pos hgt]
      by_cases hgt2 : sf.elapsedTime > k.c2
      · rw [if_pos hgt2]
        exact ⟨rfl, by simp⟩
      · rw [if_neg hgt2]
        exact hinc k.c2
    · rw [if_neg hgt]
      exact hinc k.c1

/-- C19, as the code has it. A factory built from over-wide fields can never issue an ID:
for `uint` widths with `(workerIDBits + sequenceBits) mod 2 ^ 64 > 63`, which covers every
sum above 63 and below `2 ^ 64`, the timestamp width of the factory `NewFactory` produces is
at least 64, `1 << bitLenTimestamp` is 0, `BuildID` returns `(0, "over the time limit")`
for every worker, tick and sequence, and every call of `Snowflake.ID` on a generator of that
factory returns an error and no identifier. -/
theorem C19_overwide_never_issues (w s gapMs : Nat) (startTime : Int)
    (hw : w < 2 ^ 64) (hs : s < 2 ^ 64) (h : 63 < (w + s) % 2 ^ 64) :
    64 ≤ (NewFactory w s gapMs startTime).bitLenTimestamp ∧
    shl64 1 (NewFactory w s gapMs startTime).bitLenTimestamp = 0 ∧
    (∀ workerID elapsedTime sequence : Nat,
      BuildID (NewFactory w s gapMs startTime) workerID elapsedTime sequence
        = (0, some Err.overTheTimeLimit)) ∧
    (∀ (sf : Snowflake) (k : Call), sf.f = NewFactory w s gapMs startTime →
      (ID sf k).ret.1 = 0 ∧ (ID sf k).ret.2 ≠ none) := by
  have ht : 64 ≤ (NewFactory w s gapMs startTime).bitLenTimestamp := by
    rw [NewFactory_bitLenTimestamp_wrap gapMs startTime hw hs]
    omega
  have hz := shl64_one_of_ge ht
  refine ⟨ht, hz, BuildID_of_limit_zero hz, ?_⟩
  intro sf k hf
  apply ID_fails_of_BuildID_fails
  rw [hf]
  exact BuildID_of_limit_zero hz

/-- C19 as amended, at the widths 40 and 30. -/
theorem C19_overwide_never_issues_witness :
    ((40 : Nat) < 2 ^ 64 ∧ (30 : Nat) < 2 ^ 64 ∧ 63 < (40 + 30) % 2 ^ 64) ∧
    64 ≤ (NewFactory 40 30 1 0).bitLenTimestamp ∧
    shl64 1 (NewFactory 40 30 1 0).bitLenTimestamp = 0 ∧
    (∀ workerID elapsedTime sequence : Nat,
      BuildID (NewFactory 40 30 1 0) workerID elapsedTime sequence
        = (0, some Err.overTheTimeLimit)) ∧
    (∀ (sf : Snowflake) (k : Call), sf.f = NewFactory 40 30 1 0 →
      (ID sf k).ret.1 = 0 ∧ (ID sf k).ret.2 ≠ none) :=
  ⟨⟨by decide, by decide, by decide⟩,
    C19_overwide_never_issues 40 30 1 0 (by decide) (by decide) (by decide)⟩

/-- C19 fails when the sum of the widths passes `2 ^ 64`: for
`NewFactory(1<<63, 1<<63, 1, t)` the subtraction `63 - 2 ^ 63 - 2 ^ 63` wraps back to 63,
`BuildID(0, 5, 0)` returns the identifier 5, and the first call of a fresh generator, at
tick 5 with draw 0, returns 5. -/
theorem C19_overwide_never_issues_counterexample :
    63 < 2 ^ 63 + 2 ^ 63 ∧
    (NewFactory (2 ^ 63) (2 ^ 63) 1 0).bitLenTimestamp = 63 ∧
    BuildID (NewFactory (2 ^ 63) (2 ^ 63) 1 0) 0 5 0 = (5, none) ∧
    (NewFactory (2 ^ 63) (2 ^ 63) 1 0).NewSnowflake 0
      = (some ⟨NewFactory (2 ^ 63) (2 ^ 63) 1 0, 0, 0, 0⟩, none) ∧
    (ID ⟨NewFactory (2 ^ 63) (2 ^ 63) 1 0, 0, 0, 0⟩ ⟨5, 5, 0⟩).ret = (5, none) := by
  decide

/-! ## Ticks and sleeping times -/

theorem toInt64_of_range {x : Int} (h1 : -2 ^ 63 ≤ x) (h2 : x < 2 ^ 63) : toInt64 x = x := by
  unfold toInt64
  omega

theorem toUint64_of_nonneg {x : Int} (h1 : 0 ≤ x) (h2 : x < 2 ^ 64) :
    toUint64 x = x.toNat := by
  unfold toUint64
  rw [Int.emod_eq_of_lt h1 h2]

theorem toUint64_lt (x : Int) : toUint64 x < 2 ^ 64 := by
  unfold toUint64
  have h1 : 0 ≤ x % 2 ^ 64 := Int.emod_nonneg x (by decide)
  have h2 : x % 2 ^ 64 < 2 ^ 64 := Int.emod_lt_of_pos x (by decide)
  omega

/-- Every tick is a `uint64`. -/
theorem FlakeTimestamp_lt {f : Factory} {t : Int} {a : Nat}
    (h : FlakeTimestamp f t = some a) : a < 2 ^ 64 := by
  unfold FlakeTimestamp at h
  by_cases hu : f.unit = 0
  · rw [if_pos hu] at h
    exact absurd h (by simp)
  · rw [if_neg hu] at h
    have h1 : toUint64 (toInt64 (Int.tdiv t f.unit)) = a := Option.some.inj h
    rw [← h1]
    exact toUint64_lt _

/-- The tick of an instant that is not before the Unix epoch, for a positive unit: the
quotient rounded down. -/
theorem FlakeTimestamp_of_nonneg {f : Factory} {t : Int} (hu : 0 < f.unit)
    (ht : 0 ≤ t) (ht1 : t < 2 ^ 63) : FlakeTimestamp f t = some (t / f.unit).toNat := by
  have hq0 : 0 ≤ t / f.unit := Int.ediv_nonneg ht (Int.le_of_lt hu)
  have hq1 : t / f.unit ≤ t := Int.ediv_le_self f.unit ht
  unfold FlakeTimestamp
  rw [if_neg (by omega), Int.tdiv_eq_ediv ht (Int.le_of_lt hu),
    toInt64_of_range (by omega) (by omega), toUint64_of_nonneg hq0 (by omega)]

/-! ## C14 -/

/-- C14. Sleep lands on the tick boundary: for a factory with unit `u ≥ 1 ms`, a clock
reading with nanosecond value `n ≥ 0` and an overtime `k ≥ 0` with `k * u` inside `int64`,
`SleepTime(k)` returns `k * u - (n mod u)`; `n` plus that duration is
`(floor(n / u) + k) * u`, the start of the tick `k` ticks after the current one; and for
`k = 1` the duration lies in `(0, u]`. -/
theorem C14_SleepTime_boundary (f : Factory) (now overtime : Int)
    (hu : Millisecond ≤ f.unit) (hu1 : f.unit < 2 ^ 63)
    (hn : 0 ≤ now) (hk : 0 ≤ overtime) (hov : overtime * f.unit < 2 ^ 63) :
    SleepTime f now overtime = some (overtime * f.unit - Int.fmod now f.unit) ∧
    now + (overtime * f.unit - Int.fmod now f.unit)
      = (Int.fdiv now f.unit + overtime) * f.unit ∧
    (overtime = 1 →
      0 < overtime * f.unit - Int.fmod now f.unit ∧
      overtime * f.unit - Int.fmod now f.unit ≤ f.unit) := by
  have hupos : 0 < f.unit := by
    unfold Millisecond at hu
    omega
  have hm0 : 0 ≤ now % f.unit := Int.emod_nonneg now (by omega)
  have hm1 : now % f.unit < f.unit := Int.emod_lt_of_pos now hupos
  have hp0 : 0 ≤ overtime * f.unit := Int.mul_nonneg hk (Int.le_of_lt hupos)
  have hdm : now / f.unit * f.unit + now % f.unit = now := Int.ediv_add_emod' now f.unit
  rw [Int.fmod_eq_emod now (Int.le_of_lt hupos), Int.fdiv_eq_ediv now (Int.le_of_lt hupos)]
  refine ⟨?_, ?_, ?_⟩
  · unfold SleepTime Nanosecond
    have e1 : toInt64 (overtime * f.unit) = overtime * f.unit :=
      toInt64_of_range (by omega) hov
    have e2 : toInt64 (now % f.unit) = now % f.unit :=
      toInt64_of_range (by omega) (by omega)
    have e3 : toInt64 (overtime * f.unit - now % f.unit) = overtime * f.unit - now % f.unit :=
      toInt64_of_range (by omega) (by omega)
    rw [if_neg (by omega), Int.tmod_eq_emod hn (Int.le_of_lt hupos), e1, e2, Int.mul_one,
      e2, e3]
  · rw [Int.add_mul]
    omega
  · intro h1
    rw [h1, Int.one_mul]
    omega

/-- C14, at the default unit of 1 ms: 1234567 ns after the epoch, one tick of overtime. -/
theorem C14_SleepTime_boundary_witness :
    (Millisecond ≤ (NewFactory 10 12 1 0).unit ∧ (NewFactory 10 12 1 0).unit < 2 ^ 63 ∧
      (0 : Int) ≤ 1234567 ∧ (0 : Int) ≤ 1 ∧
      1 * (NewFactory 10 12 1 0).unit < 2 ^ 63) ∧
    SleepTime (NewFactory 10 12 1 0) 1234567 1
      = some (1 * (NewFactory 10 12 1 0).unit
          - Int.fmod 1234567 (NewFactory 10 12 1 0).unit) ∧
    1234567 + (1 * (NewFactory 10 12 1 0).unit
        - Int.fmod 1234567 (NewFactory 10 12 1 0).unit)
      = (Int.fdiv 1234567 (NewFactory 10 12 1 0).unit + 1) * (NewFactory 10 12 1 0).unit ∧
    ((1 : Int) = 1 →
      0 < 1 * (NewFactory 10 12 1 0).unit
          - Int.fmod 1234567 (NewFactory 10 12 1 0).unit ∧
      1 * (NewFactory 10 12 1 0).unit
          - Int.fmod 1234567 (NewFactory 10 12 1 0).unit ≤ (NewFactory 10 12 1 0).unit) :=
  ⟨⟨by decide, by decide, by decide, by decide, by decide⟩,
    C14_SleepTime_boundary (NewFactory 10 12 1 0) 1234567 1
      (by decide) (by decide) (by decide) (by decide) (by decide)⟩

/-! ## C15 -/

/-- C15, as the code has it. Tick quantisation preserves order from the Unix epoch on: for
a factory with unit `u ≥ 1 ms` and an instant `t` whose nanosecond value is not negative,
`FlakeTimestamp(t)` is `floor(UnixNano(t) / u)`, and for every later instant `t2`
`FlakeTimestamp(t) ≤ FlakeTimestamp(t2)`. -/
theorem C15_FlakeTimestamp_floor (f : Factory) (t t2 : Int)
    (hu : Millisecond ≤ f.unit) (ht : 0 ≤ t) (h12 : t ≤ t2) (ht2 : t2 < 2 ^ 63) :
    FlakeTimestamp f t = some (Int.fdiv t f.unit).toNat ∧ 0 ≤ Int.fdiv t f.unit ∧
    FlakeTimestamp f t2 = some (Int.fdiv t2 f.unit).toNat ∧
    (Int.fdiv t f.unit).toNat ≤ (Int.fdiv t2 f.unit).toNat := by
  have hupos : 0 < f.unit := by
    unfold Millisecond at hu
    omega
  rw [Int.fdiv_eq_ediv t (Int.le_of_lt hupos), Int.fdiv_eq_ediv t2 (Int.le_of_lt hupos)]
  have hq0 : 0 ≤ t / f.unit := Int.ediv_nonneg ht (Int.le_of_lt hupos)
  have hmono : t / f.unit ≤ t2 / f.unit := Int.ediv_le_ediv hupos h12
  refine ⟨FlakeTimestamp_of_nonneg hupos ht (by omega), hq0,
    FlakeTimestamp_of_nonneg hupos (by omega) ht2, ?_⟩
  omega

/-- C15 as amended, at the default unit of 1 ms: the instants 1999999 ns and 2000000 ns. -/
theorem C15_FlakeTimestamp_floor_witness :
    (Millisecond ≤ (NewFactory 10 12 1 0).unit ∧ (0 : Int) ≤ 1999999 ∧
      (1999999 : Int) ≤ 2000000 ∧ (2000000 : Int) < 2 ^ 63) ∧
    FlakeTimestamp (NewFactory 10 12 1 0) 1999999
      = some (Int.fdiv 1999999 (NewFactory 10 12 1 0).unit).toNat ∧
    0 ≤ Int.fdiv 1999999 (NewFactory 10 12 1 0).unit ∧
    FlakeTimestamp (NewFactory 10 12 1 0) 2000000
      = some (Int.fdiv 2000000 (NewFactory 10 12 1 0).unit).toNat ∧
    (Int.fdiv 1999999 (NewFactory 10 12 1 0).unit).toNat
      ≤ (Int.fdiv 2000000 (NewFactory 10 12 1 0).unit).toNat :=
  ⟨⟨by decide, by decide, by decide, by decide⟩,
    C15_FlakeTimestamp_floor (NewFactory 10 12 1 0) 1999999 2000000
      (by decide) (by decide) (by decide) (by decide)⟩

/-- C15 fails before the Unix epoch, at the unit of 1 ms: the instant `-1 ns` has tick 0
while `floor(-1 / 1000000) = -1`; and the instant `-1000000 ns` has tick `2 ^ 64 - 1`,
above the tick 0 of the later instant `0 ns`. -/
theorem C15_FlakeTimestamp_floor_counterexample :
    (NewFactory 10 12 1 0).unit = 1000000 ∧
    FlakeTimestamp (NewFactory 10 12 1 0) (-1) = some 0 ∧
    Int.fdiv (-1) 1000000 = -1 ∧
    (-1000000 : Int) ≤ 0 ∧
    FlakeTimestamp (NewFactory 10 12 1 0) (-1000000) = some (2 ^ 64 - 1) ∧
    FlakeTimestamp (NewFactory 10 12 1 0) 0 = some 0 ∧
    ¬ (2 ^ 64 - 1 ≤ 0) := by
  decide

/-! ## C16 -/

/-- From a stored tick below `2 ^ 64 - 1`, a call whose first reading is `2 ^ 63` or more
returns an error, whatever the second reading and the draw. -/
theorem ID_fails_of_high {w s gapMs : Nat} {startTime : Int} (h : w + s ≤ 63)
    {sf : Snowflake} (hf : sf.f = NewFactory w s gapMs startTime)
    (hL : sf.elapsedTime < 2 ^ 64 - 1) (k : Call) (hk : 2 ^ 63 ≤ k.c1) :
    (ID sf k).ret.1 = 0 ∧ (ID sf k).ret.2 ≠ none := by
  have hpow : 2 ^ (63 - s - w) ≤ 2 ^ 63 := Nat.pow_le_pow_right (by decide) (by omega)
  have hover : ∀ workerID e q : Nat, 2 ^ 63 ≤ e →
      BuildID sf.f workerID e q = (0, some Err.overTheTimeLimit) := by
    intro workerID e q he
    rw [hf]
    exact BuildID_over gapMs startTime h workerID q (by omega)
  have hinc : ∀ c : Nat, 2 ^ 63 ≤ sf.elapsedTime →
      (increment sf c).ret.1 = 0 ∧ (increment sf c).ret.2 ≠ none := by
    intro c hge
    have ha : add64 sf.elapsedTime 1 = sf.elapsedTime + 1 := add64_of_lt (by omega)
    unfold increment
    by_cases h0 : MaskSequence sf.f (add32 sf.sequence 1) = 0
    · simp only [h0, if_true, ha, hover _ (sf.elapsedTime + 1) _ (by omega)]
      exact ⟨trivial, by simp⟩
    · simp only [h0, if_false, hover _ sf.elapsedTime _ hge]
      exact ⟨trivial, by simp⟩
  unfold ID
  by_cases hlt : sf.elapsedTime < k.c1
  · rw [if_pos hlt]
    simp only [hover _ k.c1 _ hk]
    exact ⟨trivial, by simp⟩
  · rw [if_neg hlt]
    by_cases hgt : sf.elapsedTime > k.c1
    · rw [if_pos hgt]
      by_cases hgt2 : sf.elapsedTime > k.c2
      · rw [if_pos hgt2]
        exact ⟨rfl, by simp⟩
      · rw [if_neg hgt2]
        exact hinc k.c2 (by omega)
    · rw [if_neg hgt]
      exact hinc k.c1 (by omega)

/-- C16, as the code has it. No ID before the epoch: for a factory with
`workerBits + sequenceBits ≤ 63`, a positive unit and a `startTime` that is not before the
Unix epoch, a generator of that factory in any state whose stored tick is below
`2 ^ 64 - 1`, and a clock reading whose tick `FlakeTimestamp(now)` is strictly smaller than
`FlakeTimestamp(startTime)`, the reading `CurrentElapsedTime()` is at least `2 ^ 63` and
`Snowflake.ID` returns an error and no ID, whatever the second reading and the draw. -/
theorem C16_no_ID_before_epoch (w s gapMs : Nat) (startTime : Int) (h : w + s ≤ 63)
    (hu : 0 < (NewFactory w s gapMs startTime).unit)
    (hs0 : 0 ≤ startTime) (hs1 : startTime < 2 ^ 63)
    (sf : Snowflake) (hf : sf.f = NewFactory w s gapMs startTime)
    (hL : sf.elapsedTime < 2 ^ 64 - 1)
    (now : Int) (a b : Nat)
    (ha : FlakeTimestamp sf.f now = some a) (hb : FlakeTimestamp sf.f startTime = some b)
    (hab : a < b) (c2 r : Nat) :
    CurrentElapsedTime sf.f now = some (sub64 a b) ∧ 2 ^ 63 ≤ sub64 a b ∧
    (ID sf ⟨sub64 a b, c2, r⟩).ret.1 = 0 ∧ (ID sf ⟨sub64 a b, c2, r⟩).ret.2 ≠ none := by
  have hst : sf.f.startTime = startTime := by rw [hf]; rfl
  have hb1 : b < 2 ^ 63 := by
    rw [hf, FlakeTimestamp_of_nonneg hu hs0 hs1] at hb
    have hb2 : (startTime / (NewFactory w s gapMs startTime).unit).toNat = b :=
      Option.some.inj hb
    have hq1 : startTime / (NewFactory w s gapMs startTime).unit ≤ startTime :=
      Int.ediv_le_self _ hs0
    omega
  have hc : 2 ^ 63 ≤ sub64 a b := by
    unfold sub64
    omega
  have hcur : CurrentElapsedTime sf.f now = some (sub64 a b) := by
    unfold CurrentElapsedTime
    rw [hst, ha, hb]
  have hid := ID_fails_of_high h hf hL ⟨sub64 a b, c2, r⟩ hc
  exact ⟨hcur, hc, hid⟩

/-- C16 as amended, at the default layout and epoch: stored tick 10, clock one millisecond
before the epoch. -/
theorem C16_no_ID_before_epoch_witness :
    (10 + 12 ≤ 63 ∧ 0 < (NewFactory 10 12 1 defaultStartTime).unit ∧
      0 ≤ defaultStartTime ∧ defaultStartTime < 2 ^ 63 ∧
      (10 : Nat) < 2 ^ 64 - 1 ∧
      FlakeTimestamp (NewFactory 10 12 1 defaultStartTime) (defaultStartTime - 1000000)
        = some 1288834974656 ∧
      FlakeTimestamp (NewFactory 10 12 1 defaultStartTime) defaultStartTime
        = some 1288834974657 ∧
      (1288834974656 : Nat) < 1288834974657) ∧
    CurrentElapsedTime (NewFactory 10 12 1 defaultStartTime) (defaultStartTime - 1000000)
      = some (sub64 1288834974656 1288834974657) ∧
    2 ^ 63 ≤ sub64 1288834974656 1288834974657 ∧
    (ID ⟨NewFactory 10 12 1 defaultStartTime, 7, 10, 3⟩
      ⟨sub64 1288834974656 1288834974657, 0, 0⟩).ret.1 = 0 ∧
    (ID ⟨NewFactory 10 12 1 defaultStartTime, 7, 10, 3⟩
      ⟨sub64 1288834974656 1288834974657, 0, 0⟩).ret.2 ≠ none :=
  ⟨⟨by decide, by decide, by decide, by decide, by decide, by decide, by decide, by decide⟩,
    C16_no_ID_before_epoch 10 12 1 defaultStartTime (by decide) (by decide) (by decide)
      (by decide) ⟨NewFactory 10 12 1 defaultStartTime, 7, 10, 3⟩ rfl (by decide)
      (defaultStartTime - 1000000) 1288834974656 1288834974657 (by decide) (by decide)
      (by decide) 0 0⟩

/-- C16 fails in two ways. Default layout and epoch, generator with stored tick
`2 ^ 64 - 1` and sequence 4095, clock one millisecond before the epoch: the reading is
`2 ^ 64 - 1`, the sequence wraps, the stored tick wraps to 0, and the call returns the
identifier 7. And with a `startTime` one millisecond before the Unix epoch the tick of
`startTime` is `2 ^ 64 - 1`, every later instant has a smaller tick, and a fresh generator
reading the clock 5 ms after the Unix epoch issues an identifier at tick 6. -/
theorem C16_no_ID_before_epoch_counterexample :
    (10 + 12 ≤ 63 ∧
      FlakeTimestamp (NewFactory 10 12 1 defaultStartTime) (defaultStartTime - 1000000)
        = some 1288834974656 ∧
      FlakeTimestamp (NewFactory 10 12 1 defaultStartTime) defaultStartTime
        = some 1288834974657 ∧
      CurrentElapsedTime (NewFactory 10 12 1 defaultStartTime) (defaultStartTime - 1000000)
        = some (2 ^ 64 - 1) ∧
      ID ⟨NewFactory 10 12 1 defaultStartTime, 7, 2 ^ 64 - 1, 4095⟩
          ⟨2 ^ 64 - 1, 2 ^ 64 - 1, 0⟩
        = { sf := ⟨NewFactory 10 12 1 defaultStartTime, 7, 0, 0⟩, ret := (7, none),
            overtime := some 1 }) ∧
    (FlakeTimestamp (NewFactory 10 12 1 (-1000000)) 5000000 = some 5 ∧
      FlakeTimestamp (NewFactory 10 12 1 (-1000000)) (-1000000) = some (2 ^ 64 - 1) ∧
      (5 : Nat) < 2 ^ 64 - 1 ∧
      CurrentElapsedTime (NewFactory 10 12 1 (-1000000)) 5000000 = some 6 ∧
      (NewFactory 10 12 1 (-1000000)).NewSnowflake 7
        = (some ⟨NewFactory 10 12 1 (-1000000), 7, 0, 0⟩, none) ∧
      (ID ⟨NewFactory 10 12 1 (-1000000), 7, 0, 0⟩ ⟨6, 6, 3⟩).ret = (25168903, none)) := by
  decide

/-! ## C17 -/

/-- The advance path of `Snowflake.ID` with the reading and the draw given: the tick and
the draw are stored, the old sequence and a second reading of the tick play no part. -/
theorem ID_advance (sf : Snowflake) (k : Call) (h : sf.elapsedTime < k.c1) :
    (ID sf k).sf = { sf with elapsedTime := k.c1, sequence := k.r } ∧
    (ID sf k).sf.workerID = sf.workerID ∧
    (ID sf k).ret = BuildID sf.f sf.workerID k.c1 k.r ∧
    (ID sf k).overtime = none ∧
    (∀ c2 : Nat, ID sf ⟨k.c1, c2, k.r⟩ = ID sf k) ∧
    (∀ q : Nat, (ID { sf with sequence := q } k).sf = (ID sf k).sf ∧
      (ID { sf with sequence := q } k).ret = (ID sf k).ret) := by
  have e : ∀ (q c2 : Nat), ID { sf with sequence := q } ⟨k.c1, c2, k.r⟩
      = ⟨{ sf with elapsedTime := k.c1, sequence := k.r },
          BuildID sf.f sf.workerID k.c1 k.r, none⟩ := by
    intro q c2
    unfold ID
    rw [if_pos h]
  have e0 : ID sf k = ⟨{ sf with elapsedTime := k.c1, sequence := k.r },
      BuildID sf.f sf.workerID k.c1 k.r, none⟩ := e sf.sequence k.c2
  refine ⟨by rw [e0], by rw [e0], by rw [e0], by rw [e0], ?_, ?_⟩
  · intro c2
    rw [e0]
    exact e sf.sequence c2
  · intro q
    have e1 : ID { sf with sequence := q } k = ID sf k := by
      rw [e0]
      exact e q k.c2
    rw [e1]
    exact ⟨rfl, rfl⟩

/-! ## The draw of `generateRandomSequence` -/

/-- The loop of `uint64n` returns a value below `n` when it is entered with one, and does
not put readings back. -/
theorem uint64nLoop_spec {n : Nat} (hn : 0 < n) (thresh : Nat) (clock : List Int) :
    ∀ (hi lo r : Nat) (rest : List Int), hi < n →
      uint64nLoop n thresh hi lo clock = Run.ok r rest →
      r < n ∧ rest.length ≤ clock.length := by
  induction clock with
  | nil =>
    intro hi lo r rest hhi h
    unfold uint64nLoop at h
    by_cases hlo : lo < thresh
    · rw [if_pos hlo] at h
      exact absurd h (by simp)
    · rw [if_neg hlo] at h
      injection h with h1 h2
      subst h1 h2
      exact ⟨hhi, Nat.le_refl _⟩
  | cons now rest0 ih =>
    intro hi lo r rest hhi h
    unfold uint64nLoop at h
    by_cases hlo : lo < thresh
    · rw [if_pos hlo] at h
      have hx : toUint64 now * n / 2 ^ 64 < n := by
        apply Nat.div_lt_of_lt_mul
        exact Nat.mul_lt_mul_of_pos_right (toUint64_lt now) hn
      obtain ⟨h1, h2⟩ := ih _ _ r rest hx h
      exact ⟨h1, Nat.le_succ_of_le h2⟩
    · rw [if_neg hlo] at h
      injection h with h1 h2
      subst h1 h2
      exact ⟨hhi, Nat.le_refl _⟩

/-- The method `uint64n` for `n = 9`, on a clock with at least one reading. -/
theorem uint64n_nine (now : Int) (rest0 : List Int) :
    uint64n 9 (now :: rest0)
      = if toUint64 now * 9 % 2 ^ 64 < 9 then
          uint64nLoop 9 7 (toUint64 now * 9 / 2 ^ 64) (toUint64 now * 9 % 2 ^ 64) rest0
        else Run.ok (toUint64 now * 9 / 2 ^ 64) rest0 := by
  have h7 : sub64 0 9 % 9 = 7 := by decide
  unfold uint64n
  rw [if_neg (by decide), h7]
  rfl

/-- The conversions `uint32(int32(v))` leave a value below 9 as it is. -/
theorem small_conversions : ∀ v : Nat, v < 9 → toUint32 (toInt32 (v : Int)) = v := by
  decide

/-- The draw `generateRandomSequence(9)` reads the clock at least once, and its value is
below 9. -/
theorem generateRandomSequence_spec {clock : List Int} {r : Nat} {rest : List Int}
    (h : generateRandomSequence 9 clock = Run.ok r rest) :
    r < 9 ∧ rest.length < clock.length := by
  have h9 : toUint64 9 = 9 := by decide
  unfold generateRandomSequence Int32N at h
  rw [if_neg (by decide), h9] at h
  cases clock with
  | nil => exact absurd h (by simp [uint64n, source.Uint64])
  | cons now rest0 =>
    have hx : toUint64 now * 9 / 2 ^ 64 < 9 := by
      apply Nat.div_lt_of_lt_mul
      exact Nat.mul_lt_mul_of_pos_right (toUint64_lt now) (by decide)
    have hu : ∀ (v : Nat) (rest1 : List Int), uint64n 9 (now :: rest0) = Run.ok v rest1 →
        v < 9 ∧ rest1.length ≤ rest0.length := by
      intro v rest1 hv
      rw [uint64n_nine] at hv
      by_cases hlo : toUint64 now * 9 % 2 ^ 64 < 9
      · rw [if_pos hlo] at hv
        exact uint64nLoop_spec (by decide) 7 rest0 _ _ v rest1 hx hv
      · rw [if_neg hlo] at hv
        injection hv with h1 h2
        subst h1 h2
        exact ⟨hx, Nat.le_refl _⟩
    cases hv : uint64n 9 (now :: rest0) with
    | ok v rest1 =>
      rw [hv] at h
      obtain ⟨hv9, hlen⟩ := hu v rest1 hv
      injection h with h1 h2
      subst h2
      have hr : toUint32 (toInt32 (v : Int)) = v := small_conversions v hv9
      rw [hr] at h1
      subst h1
      exact ⟨hv9, Nat.lt_succ_of_le hlen⟩
    | panic =>
      rw [hv] at h
      exact absurd h (by simp)
    | noReading =>
      rw [hv] at h
      exact absurd h (by simp)

/-- The advance path of `Snowflake.ID` reading the clock, for any stored sequence. -/
theorem IDNow_advance (sf : Snowflake) (q : Nat) (now : Int) (clock rest : List Int)
    (c r : Nat) (hc : CurrentElapsedTime sf.f now = some c) (h : sf.elapsedTime < c)
    (hr : generateRandomSequence 9 clock = Run.ok r rest) :
    IDNow { sf with sequence := q } (now :: clock)
      = Run.ok ⟨{ sf with elapsedTime := c, sequence := r },
          BuildID sf.f sf.workerID c r, none⟩ rest := by
  have hcn : CurrentElapsedTimeNow sf.f (now :: clock) = Run.ok c clock := by
    show (match CurrentElapsedTime sf.f now with
      | some c => Run.ok c clock
      | none => Run.panic) = _
    rw [hc]
  unfold IDNow
  show (match CurrentElapsedTimeNow sf.f (now :: clock) with
    | Run.panic => Run.panic
    | Run.noReading => Run.noReading
    | Run.ok currentElapsedTime clock1 => _) = _
  rw [hcn]
  show (if sf.elapsedTime < c then _ else _) = _
  rw [if_pos h, hr]

/-- C17, as the code has it. Advance step: in every generator state whose stored tick is
below the sampled tick `c`, `Snowflake.ID` stores `c` as tick and the value `r` drawn by
`generateRandomSequence(9)` as sequence (the old sequence plays no part and is not
incremented), leaves factory and worker unchanged, does not sleep and returns exactly what
`BuildID(workerID, c, r)` returns. The tick is sampled only once on this path:
`CurrentElapsedTime()` is not called again, and given the draw the outcome is the same
whatever a second reading of the tick would be. The clock itself is read more than once:
`generateRandomSequence` reads `time.Now()` at least once more to compute the draw, which
is below 9, and with a single reading of the clock the call cannot complete. -/
theorem C17_advance_step (sf : Snowflake) (now : Int) (clock rest : List Int) (c r : Nat)
    (hc : CurrentElapsedTime sf.f now = some c) (h : sf.elapsedTime < c)
    (hr : generateRandomSequence 9 clock = Run.ok r rest) :
    IDNow sf (now :: clock)
      = Run.ok ⟨{ sf with elapsedTime := c, sequence := r },
          BuildID sf.f sf.workerID c r, none⟩ rest ∧
    (∀ q : Nat, IDNow { sf with sequence := q } (now :: clock) = IDNow sf (now :: clock)) ∧
    (∀ c2 : Nat, ID sf ⟨c, c2, r⟩
      = ⟨{ sf with elapsedTime := c, sequence := r }, BuildID sf.f sf.workerID c r, none⟩) ∧
    r < 9 ∧ rest.length < clock.length ∧
    IDNow sf [now] = Run.noReading := by
  have e := fun q : Nat => IDNow_advance sf q now clock rest c r hc h hr
  have e0 : IDNow sf (now :: clock)
      = Run.ok ⟨{ sf with elapsedTime := c, sequence := r },
          BuildID sf.f sf.workerID c r, none⟩ rest := e sf.sequence
  obtain ⟨hr9, hlen⟩ := generateRandomSequence_spec hr
  refine ⟨e0, ?_, ?_, hr9, hlen, ?_⟩
  · intro q
    rw [e0]
    exact e q
  · intro c2
    unfold ID
    rw [if_pos h]
  · have hcn : CurrentElapsedTimeNow sf.f [now] = Run.ok c [] := by
      show (match CurrentElapsedTime sf.f now with
        | some c => Run.ok c []
        | none => Run.panic) = _
      rw [hc]
    unfold IDNow
    show (match CurrentElapsedTimeNow sf.f [now] with
      | Run.panic => Run.panic
      | Run.noReading => Run.noReading
      | Run.ok currentElapsedTime clock1 => _) = _
    rw [hcn]
    show (if sf.elapsedTime < c then _ else _) = _
    rw [if_pos h]
    rfl

/-- C17 as amended, at the default layout and epoch: a fresh generator, the clock reading
2049638230412172400 ns for the tick and 2049638230412172403 ns for the draw. -/
theorem C17_advance_step_witness :
    (CurrentElapsedTime (NewFactory 10 12 1 defaultStartTime) 2049638230412172400
        = some 760803255755 ∧
      (0 : Nat) < 760803255755 ∧
      generateRandomSequence 9 [2049638230412172403] = Run.ok 1 []) ∧
    IDNow ⟨NewFactory 10 12 1 defaultStartTime, 7, 0, 0⟩
        (2049638230412172400 :: [2049638230412172403])
      = Run.ok ⟨⟨NewFactory 10 12 1 defaultStartTime, 7, 760803255755, 1⟩,
          BuildID (NewFactory 10 12 1 defaultStartTime) 7 760803255755 1, none⟩ [] ∧
    (∀ q : Nat,
      IDNow ⟨NewFactory 10 12 1 defaultStartTime, 7, 0, q⟩
          (2049638230412172400 :: [2049638230412172403])
        = IDNow ⟨NewFactory 10 12 1 defaultStartTime, 7, 0, 0⟩
          (2049638230412172400 :: [2049638230412172403])) ∧
    (∀ c2 : Nat, ID ⟨NewFactory 10 12 1 defaultStartTime, 7, 0, 0⟩ ⟨760803255755, c2, 1⟩
      = ⟨⟨NewFactory 10 12 1 defaultStartTime, 7, 760803255755, 1⟩,
          BuildID (NewFactory 10 12 1 defaultStartTime) 7 760803255755 1, none⟩) ∧
    1 < 9 ∧ ([] : List Int).length < [(2049638230412172403 : Int)].length ∧
    IDNow ⟨NewFactory 10 12 1 defaultStartTime, 7, 0, 0⟩ [2049638230412172400]
      = Run.noReading :=
  ⟨⟨by decide, by decide, by decide⟩,
    C17_advance_step ⟨NewFactory 10 12 1 defaultStartTime, 7, 0, 0⟩ 2049638230412172400
      [2049638230412172403] [] 760803255755 1 (by decide) (by decide) (by decide)⟩

/-- C17 fails on its last clause: the clock is read more than once on the advance path.
Default layout and epoch, fresh generator of worker 7, first reading 2049638230412172400 ns
(tick 760803255755). With that reading alone the call cannot complete. With the next reading
2049638230412172401 ns the draw is 0 and the identifier 3191040138826219527; with the next
reading 2049638230412172403 ns the draw is 1 and the identifier 3191040138826220551: the
same state and the same first reading give two outcomes. With the next reading
2049638230412172402 ns the draw is rejected and a third reading is taken. -/
theorem C17_advance_step_counterexample :
    CurrentElapsedTime (NewFactory 10 12 1 defaultStartTime) 2049638230412172400
      = some 760803255755 ∧
    (0 : Nat) < 760803255755 ∧
    IDNow ⟨NewFactory 10 12 1 defaultStartTime, 7, 0, 0⟩ [2049638230412172400]
      = Run.noReading ∧
    IDNow ⟨NewFactory 10 12 1 defaultStartTime, 7, 0, 0⟩
        [2049638230412172400, 2049638230412172401]
      = Run.ok ⟨⟨NewFactory 10 12 1 defaultStartTime, 7, 760803255755, 0⟩,
          (3191040138826219527, none), none⟩ [] ∧
    IDNow ⟨NewFactory 10 12 1 defaultStartTime, 7, 0, 0⟩
        [2049638230412172400, 2049638230412172403]
      = Run.ok ⟨⟨NewFactory 10 12 1 defaultStartTime, 7, 760803255755, 1⟩,
          (3191040138826220551, none), none⟩ [] ∧
    IDNow ⟨NewFactory 10 12 1 defaultStartTime, 7, 0, 0⟩
        [2049638230412172400, 2049638230412172402]
      = Run.noReading ∧
    IDNow ⟨NewFactory 10 12 1 defaultStartTime, 7, 0, 0⟩
        [2049638230412172400, 2049638230412172402, 2049638230412172403]
      = Run.ok ⟨⟨NewFactory 10 12 1 defaultStartTime, 7, 760803255755, 1⟩,
          (3191040138826220551, none), none⟩ [] := by
  decide

/-- The unmasked draw, from the clock alone: factory with 0 worker bits, 2 sequence bits and
a `startTime` of -3 ms, fresh generator, clock reading -2 ms for the tick and 1 ns later for
the draw. The tick is 1, the draw is 8, above `MaxSequence() = 3`, and the identifier
returned is 12. -/
theorem sequence_above_max_from_clock :
    MaxSequence (NewFactory 0 2 1 (-3000000)) = 3 ∧
    IDNow ⟨NewFactory 0 2 1 (-3000000), 0, 0, 0⟩ [-2000000, -1999999]
      = Run.ok ⟨⟨NewFactory 0 2 1 (-3000000), 0, 1, 8⟩, (12, none), none⟩ [] := by
  decide

/-! ## C18 -/

/-- The masked increment of `Snowflake.ID` is `(s + 1) & MaxSequence()` on natural
numbers: the `uint32` wrap of `s + 1` is absorbed by the mask. -/
theorem MaskSequence_add32_eq_and (f : Factory) (q : Nat) :
    MaskSequence f (add32 q 1) = (q + 1) &&& MaxSequence f := by
  rw [MaskSequence_add32, MaxSequence_eq, Nat.and_pow_two_sub_one_eq_mod]

/-- On the hold path and on the resolved re-sample path `Snowflake.ID` is the increment. -/
theorem ID_eq_increment (sf : Snowflake) (k : Call)
    (h : k.c1 = sf.elapsedTime ∨ (k.c1 < sf.elapsedTime ∧ sf.elapsedTime ≤ k.c2)) :
    ∃ c : Nat, ID sf k = increment sf c := by
  unfold ID
  rcases h with h | ⟨h1, h2⟩
  · rw [if_neg (by omega), if_neg (by omega)]
    exact ⟨k.c1, rfl⟩
  · rw [if_neg (by omega), if_pos h1, if_neg (by omega)]
    exact ⟨k.c2, rfl⟩

/-- The two outcomes of the increment: the sequence moves up, or it wraps and the tick moves
up. -/
theorem increment_eq (sf : Snowflake) (c : Nat) :
    (MaskSequence sf.f (add32 sf.sequence 1) ≠ 0 →
      increment sf c
        = { sf := { sf with sequence := MaskSequence sf.f (add32 sf.sequence 1) },
            ret := BuildID sf.f sf.workerID sf.elapsedTime
              (MaskSequence sf.f (add32 sf.sequence 1)),
            overtime := none }) ∧
    (MaskSequence sf.f (add32 sf.sequence 1) = 0 →
      increment sf c
        = { sf := { sf with sequence := 0, elapsedTime := add64 sf.elapsedTime 1 },
            ret := BuildID sf.f sf.workerID (add64 sf.elapsedTime 1) 0,
            overtime := some (toInt64 (sub64 (add64 sf.elapsedTime 1) c)) }) := by
  constructor
  · intro h0
    unfold increment
    simp only [h0, if_false]
  · intro h0
    unfold increment
    simp only [h0, if_true]

/-- C18, as the code has it. Hold/Increment step, including a resolved re-sample: in a
generator state `(L, s)`, when the first reading is `c1 = L`, or `c1 < L` and the single
second reading is `c2 ≥ L`, `Snowflake.ID` sets the sequence to
`s' = (s + 1) & MaxSequence()`. When `s' ≠ 0` it leaves the tick at `L`, does not sleep and
returns what `BuildID(workerID, L, s')` returns. When `s' = 0` and `L < 2 ^ 64 - 1` it sets
the tick to `L + 1` and returns what `BuildID(workerID, L + 1, 0)` returns. When `s' = 0`
and `L = 2 ^ 64 - 1` the tick wraps to 0 and it returns what `BuildID(workerID, 0, 0)`
returns. -/
theorem C18_hold_increment (sf : Snowflake) (k : Call)
    (h : k.c1 = sf.elapsedTime ∨ (k.c1 < sf.elapsedTime ∧ sf.elapsedTime ≤ k.c2)) :
    (ID sf k).sf.sequence = (sf.sequence + 1) &&& MaxSequence sf.f ∧
    ((sf.sequence + 1) &&& MaxSequence sf.f ≠ 0 →
      (ID sf k).sf = { sf with sequence := (sf.sequence + 1) &&& MaxSequence sf.f } ∧
      (ID sf k).ret
        = BuildID sf.f sf.workerID sf.elapsedTime ((sf.sequence + 1) &&& MaxSequence sf.f) ∧
      (ID sf k).overtime = none) ∧
    ((sf.sequence + 1) &&& MaxSequence sf.f = 0 → sf.elapsedTime < 2 ^ 64 - 1 →
      (ID sf k).sf = { sf with sequence := 0, elapsedTime := sf.elapsedTime + 1 } ∧
      (ID sf k).ret = BuildID sf.f sf.workerID (sf.elapsedTime + 1) 0) ∧
    ((sf.sequence + 1) &&& MaxSequence sf.f = 0 → sf.elapsedTime = 2 ^ 64 - 1 →
      (ID sf k).sf = { sf with sequence := 0, elapsedTime := 0 } ∧
      (ID sf k).ret = BuildID sf.f sf.workerID 0 0) := by
  obtain ⟨c, hc⟩ := ID_eq_increment sf k h
  rw [hc, ← MaskSequence_add32_eq_and sf.f sf.sequence]
  obtain ⟨hne, hz⟩ := increment_eq sf c
  refine ⟨?_, ?_, ?_, ?_⟩
  · by_cases h0 : MaskSequence sf.f (add32 sf.sequence 1) = 0
    · rw [hz h0, h0]
    · rw [hne h0]
  · intro h0
    rw [hne h0]
    exact ⟨rfl, rfl, rfl⟩
  · intro h0 hL
    rw [hz h0, add64_of_lt (by omega)]
    exact ⟨rfl, rfl⟩
  · intro h0 hL
    have ha : add64 sf.elapsedTime 1 = 0 := by
      unfold add64
      omega
    rw [hz h0, ha]
    exact ⟨rfl, rfl⟩

/-- C18 as amended, at concrete states of the default layout: stored tick 10 and sequence 3
with the readings 9 and then 12, a resolved re-sample. -/
theorem C18_hold_increment_witness :
    ((9 : Nat) = 10 ∨ ((9 : Nat) < 10 ∧ (10 : Nat) ≤ 12)) ∧
    (ID ⟨NewFactory 10 12 1 0, 7, 10, 3⟩ ⟨9, 12, 0⟩).sf.sequence
      = (3 + 1) &&& MaxSequence (NewFactory 10 12 1 0) ∧
    ((3 + 1) &&& MaxSequence (NewFactory 10 12 1 0) ≠ 0 →
      (ID ⟨NewFactory 10 12 1 0, 7, 10, 3⟩ ⟨9, 12, 0⟩).sf
        = ⟨NewFactory 10 12 1 0, 7, 10, (3 + 1) &&& MaxSequence (NewFactory 10 12 1 0)⟩ ∧
      (ID ⟨NewFactory 10 12 1 0, 7, 10, 3⟩ ⟨9, 12, 0⟩).ret
        = BuildID (NewFactory 10 12 1 0) 7 10
            ((3 + 1) &&& MaxSequence (NewFactory 10 12 1 0)) ∧
      (ID ⟨NewFactory 10 12 1 0, 7, 10, 3⟩ ⟨9, 12, 0⟩).overtime = none) ∧
    ((3 + 1) &&& MaxSequence (NewFactory 10 12 1 0) = 0 → (10 : Nat) < 2 ^ 64 - 1 →
      (ID ⟨NewFactory 10 12 1 0, 7, 10, 3⟩ ⟨9, 12, 0⟩).sf
        = ⟨NewFactory 10 12 1 0, 7, 10 + 1, 0⟩ ∧
      (ID ⟨NewFactory 10 12 1 0, 7, 10, 3⟩ ⟨9, 12, 0⟩).ret
        = BuildID (NewFactory 10 12 1 0) 7 (10 + 1) 0) ∧
    ((3 + 1) &&& MaxSequence (NewFactory 10 12 1 0) = 0 → (10 : Nat) = 2 ^ 64 - 1 →
      (ID ⟨NewFactory 10 12 1 0, 7, 10, 3⟩ ⟨9, 12, 0⟩).sf = ⟨NewFactory 10 12 1 0, 7, 0, 0⟩ ∧
      (ID ⟨NewFactory 10 12 1 0, 7, 10, 3⟩ ⟨9, 12, 0⟩).ret
        = BuildID (NewFactory 10 12 1 0) 7 0 0) :=
  ⟨by decide,
    C18_hold_increment ⟨NewFactory 10 12 1 0, 7, 10, 3⟩ ⟨9, 12, 0⟩ (by decide)⟩

/-- C18 fails at the last `uint64` tick: default layout, stored tick `L = 2 ^ 64 - 1` and
sequence 4095, first reading 5, second reading `2 ^ 64 - 1`. The sequence wraps to
`s' = 0`, the tick is left at 0 and not at `L + 1`, and the call returns the identifier 7,
which is what `BuildID(7, 0, 0)` returns, while `BuildID(7, L + 1, 0)` is an error. -/
theorem C18_hold_increment_counterexample :
    ((5 : Nat) < 2 ^ 64 - 1 ∧ (2 ^ 64 - 1 : Nat) ≤ 2 ^ 64 - 1) ∧
    (4095 + 1) &&& MaxSequence (NewFactory 10 12 1 0) = 0 ∧
    (ID ⟨NewFactory 10 12 1 0, 7, 2 ^ 64 - 1, 4095⟩ ⟨5, 2 ^ 64 - 1, 0⟩).sf
      = ⟨NewFactory 10 12 1 0, 7, 0, 0⟩ ∧
    (ID ⟨NewFactory 10 12 1 0, 7, 2 ^ 64 - 1, 4095⟩ ⟨5, 2 ^ 64 - 1, 0⟩).sf.elapsedTime
      ≠ (2 ^ 64 - 1) + 1 ∧
    (ID ⟨NewFactory 10 12 1 0, 7, 2 ^ 64 - 1, 4095⟩ ⟨5, 2 ^ 64 - 1, 0⟩).ret = (7, none) ∧
    BuildID (NewFactory 10 12 1 0) 7 0 0 = (7, none) ∧
    BuildID (NewFactory 10 12 1 0) 7 ((2 ^ 64 - 1) + 1) 0 = (0, some Err.overTheTimeLimit) := by
  decide

/-! ## C20 -/

/-- A run of calls whose readings are all below the stored tick: every call returns
`(0, InvalidSystemClock)`, the generator does not change, no identifier is issued. -/
theorem regression_run (ks : List Call) (sf : Snowflake)
    (h : ∀ k ∈ ks, k.c1 < sf.elapsedTime ∧ k.c2 < sf.elapsedTime) :
    results sf ks = List.replicate ks.length (0, some Err.InvalidSystemClock) ∧
    final sf ks = sf ∧ issued sf ks = [] := by
  induction ks with
  | nil => exact ⟨rfl, rfl, rfl⟩
  | cons k ks ih =>
    obtain ⟨h1, h2⟩ := h k (List.mem_cons_self k ks)
    obtain ⟨ih1, ih2, ih3⟩ := ih (fun k1 hk1 => h k1 (List.mem_cons_of_mem k hk1))
    have e : ID sf k = ⟨sf, (0, some Err.InvalidSystemClock), none⟩ := by
      unfold ID
      rw [if_neg (by omega), if_pos h1, if_pos h2]
    refine ⟨?_, ?_, ?_⟩
    · show (ID sf k).ret :: results (ID sf k).sf ks = _
      rw [e, ih1]
      rfl
    · show final (ID sf k).sf ks = sf
      rw [e]
      exact ih2
    · unfold issued
      rw [e, if_neg (by simp)]
      exact ih3

/-- The limit `1<<bitLenTimestamp` of `BuildID` is at most `2 ^ bitLenTimestamp`. -/
theorem shl64_one_le (n : Nat) : shl64 1 n ≤ 2 ^ n := by
  rw [shl64_eq, Nat.one_mul]
  exact Nat.mod_le _ _

/-- C20. A failed out-of-range call is not atomic and can poison the generator: in a state
whose stored tick is below the sampled tick `c`, with `c ≥ 2 ^ timestampBits`,
`Snowflake.ID` returns the error of `BuildID` and no identifier, yet leaves the stored tick
at `c` (and the sequence at the drawn value); and from that state, in every series of later
calls whose first and second readings are all below `c`, every call returns
`(0, InvalidSystemClock)`, the generator stays as it is and no identifier is issued. -/
theorem C20_out_of_range_poisons (sf : Snowflake) (k : Call)
    (h1 : sf.elapsedTime < k.c1) (h2 : 2 ^ sf.f.bitLenTimestamp ≤ k.c1) :
    (ID sf k).ret = (0, some Err.overTheTimeLimit) ∧
    (ID sf k).sf = { sf with elapsedTime := k.c1, sequence := k.r } ∧
    (ID sf k).sf.elapsedTime = k.c1 ∧
    ∀ ks : List Call, (∀ k1 ∈ ks, k1.c1 < k.c1 ∧ k1.c2 < k.c1) →
      results (ID sf k).sf ks = List.replicate ks.length (0, some Err.InvalidSystemClock) ∧
      final (ID sf k).sf ks = (ID sf k).sf ∧ issued (ID sf k).sf ks = [] := by
  have hb : BuildID sf.f sf.workerID k.c1 k.r = (0, some Err.overTheTimeLimit) := by
    unfold BuildID
    rw [if_pos (Nat.le_trans (shl64_one_le _) h2)]
  have e : ID sf k = ⟨{ sf with elapsedTime := k.c1, sequence := k.r },
      (0, some Err.overTheTimeLimit), none⟩ := by
    unfold ID
    rw [if_pos h1]
    simp only [hb]
  refine ⟨by rw [e], by rw [e], by rw [e], ?_⟩
  intro ks hks
  apply regression_run
  rw [e]
  exact hks

/-- C20, at the default layout (41 timestamp bits): a fresh generator whose clock reads one
tick before the epoch, `c = 2 ^ 64 - 1`, followed by calls at the ticks 5, 6 and
`2 ^ 64 - 2`. -/
theorem C20_out_of_range_poisons_witness :
    ((0 : Nat) < 2 ^ 64 - 1 ∧ 2 ^ (NewFactory 10 12 1 0).bitLenTimestamp ≤ 2 ^ 64 - 1) ∧
    (ID ⟨NewFactory 10 12 1 0, 7, 0, 0⟩ ⟨2 ^ 64 - 1, 2 ^ 64 - 1, 3⟩).ret
      = (0, some Err.overTheTimeLimit) ∧
    (ID ⟨NewFactory 10 12 1 0, 7, 0, 0⟩ ⟨2 ^ 64 - 1, 2 ^ 64 - 1, 3⟩).sf
      = ⟨NewFactory 10 12 1 0, 7, 2 ^ 64 - 1, 3⟩ ∧
    (ID ⟨NewFactory 10 12 1 0, 7, 0, 0⟩ ⟨2 ^ 64 - 1, 2 ^ 64 - 1, 3⟩).sf.elapsedTime
      = 2 ^ 64 - 1 ∧
    ∀ ks : List Call, (∀ k1 ∈ ks, k1.c1 < 2 ^ 64 - 1 ∧ k1.c2 < 2 ^ 64 - 1) →
      results (ID ⟨NewFactory 10 12 1 0, 7, 0, 0⟩ ⟨2 ^ 64 - 1, 2 ^ 64 - 1, 3⟩).sf ks
        = List.replicate ks.length (0, some Err.InvalidSystemClock) ∧
      final (ID ⟨NewFactory 10 12 1 0, 7, 0, 0⟩ ⟨2 ^ 64 - 1, 2 ^ 64 - 1, 3⟩).sf ks
        = (ID ⟨NewFactory 10 12 1 0, 7, 0, 0⟩ ⟨2 ^ 64 - 1, 2 ^ 64 - 1, 3⟩).sf ∧
      issued (ID ⟨NewFactory 10 12 1 0, 7, 0, 0⟩ ⟨2 ^ 64 - 1, 2 ^ 64 - 1, 3⟩).sf ks = [] :=
  ⟨⟨by decide, by decide⟩,
    C20_out_of_range_poisons ⟨NewFactory 10 12 1 0, 7, 0, 0⟩ ⟨2 ^ 64 - 1, 2 ^ 64 - 1, 3⟩
      (by decide) (by decide)⟩

end Idx
